import Mathlib

/-!
A verification development for the rendering kernel of a small ray tracer
written in Rust.  The sources embedded here are `src/aabb.rs`,
`src/math_util.rs`, `src/object/qube.rs`, `src/camera/perspective.rs`,
`src/render.rs` and `src/basic.rs`.

Modelling conventions:
* `f64` / `f32` arithmetic is embedded as exact rational arithmetic (`ℚ`).
  The only appearance of IEEE special values in the embedded code is the
  `f64::NAN` sentinel produced by `project_points_onto_ray` and the
  possibly-NaN hit distances compared via `partial_cmp`; both are modelled
  explicitly by the type `FQ := Option ℚ` where `none` plays the role of NaN.
* Rust `panic!` is modelled as `Except.error`; `Option` maps to `Option`.
* The trigonometric functions and the square root come from the Rust
  standard library, not from this repository; they are passed in as
  function parameters (`Trig`, `sqrtQ`) so that every theorem quantifies
  over them.  All claims exercised here use zero rotation, where the source
  computes the identity matrix before calling any trigonometry, and square
  roots of perfect squares only.
-/

namespace RayTracer

/-- 3-component vector over ℚ, modelling `vecmath::Vector3<f64>`. -/
structure Vec3 where
  x : ℚ
  y : ℚ
  z : ℚ
deriving DecidableEq, Repr

/-- Componentwise addition, `vecmath::vec3_add`. -/
def vec3_add (a b : Vec3) : Vec3 := ⟨a.x + b.x, a.y + b.y, a.z + b.z⟩

/-- Componentwise subtraction, `vecmath::vec3_sub`. -/
def vec3_sub (a b : Vec3) : Vec3 := ⟨a.x - b.x, a.y - b.y, a.z - b.z⟩

/-- Scalar multiplication, `vecmath::vec3_scale`. -/
def vec3_scale (a : Vec3) (s : ℚ) : Vec3 := ⟨a.x * s, a.y * s, a.z * s⟩

/-- Dot product, `vecmath::vec3_dot`. -/
def vec3_dot (a b : Vec3) : ℚ := a.x * b.x + a.y * b.y + a.z * b.z

/-- Componentwise negation, `vecmath::vec3_neg`. -/
def vec3_neg (a : Vec3) : Vec3 := ⟨-a.x, -a.y, -a.z⟩

/-- Index access `v[dim]` on a `Vector3`. -/
def Vec3.idx (a : Vec3) : Fin 3 → ℚ
  | 0 => a.x
  | 1 => a.y
  | 2 => a.z

/-- A row of the 3×4 augmented matrix used by the Gauss-Jordan solver
(`vecmath::Vector4<f64>`). -/
structure Vec4 where
  c0 : ℚ
  c1 : ℚ
  c2 : ℚ
  c3 : ℚ
deriving DecidableEq, Repr

/-- Componentwise subtraction, `vecmath::vec4_sub`. -/
def vec4_sub (a b : Vec4) : Vec4 := ⟨a.c0 - b.c0, a.c1 - b.c1, a.c2 - b.c2, a.c3 - b.c3⟩

/-- Scalar multiplication, `vecmath::vec4_scale`. -/
def vec4_scale (a : Vec4) (s : ℚ) : Vec4 := ⟨a.c0 * s, a.c1 * s, a.c2 * s, a.c3 * s⟩

/-- Row-major 3×3 matrix, `vecmath::Matrix3<f64>`. -/
structure Mat3 where
  r0 : Vec3
  r1 : Vec3
  r2 : Vec3
deriving DecidableEq, Repr

/-- `vecmath::mat3_id`. -/
def mat3_id : Mat3 := ⟨⟨1, 0, 0⟩, ⟨0, 1, 0⟩, ⟨0, 0, 1⟩⟩

/-- Row-major matrix product, `vecmath::row_mat3_mul`. -/
def row_mat3_mul (a b : Mat3) : Mat3 :=
  ⟨⟨a.r0.x * b.r0.x + a.r0.y * b.r1.x + a.r0.z * b.r2.x,
    a.r0.x * b.r0.y + a.r0.y * b.r1.y + a.r0.z * b.r2.y,
    a.r0.x * b.r0.z + a.r0.y * b.r1.z + a.r0.z * b.r2.z⟩,
   ⟨a.r1.x * b.r0.x + a.r1.y * b.r1.x + a.r1.z * b.r2.x,
    a.r1.x * b.r0.y + a.r1.y * b.r1.y + a.r1.z * b.r2.y,
    a.r1.x * b.r0.z + a.r1.y * b.r1.z + a.r1.z * b.r2.z⟩,
   ⟨a.r2.x * b.r0.x + a.r2.y * b.r1.x + a.r2.z * b.r2.x,
    a.r2.x * b.r0.y + a.r2.y * b.r1.y + a.r2.z * b.r2.y,
    a.r2.x * b.r0.z + a.r2.y * b.r1.z + a.r2.z * b.r2.z⟩⟩

/-- Matrix application to a vector, `vecmath::row_mat3_transform`. -/
def row_mat3_transform (m : Mat3) (a : Vec3) : Vec3 :=
  ⟨vec3_dot m.r0 a, vec3_dot m.r1 a, vec3_dot m.r2 a⟩

/-- Trigonometric primitives of the Rust standard library (`f64::sin`,
`f64::cos`), abstracted as parameters.  No claim exercised below depends on
their values because all rotations involved are zero. -/
structure Trig where
  sin : ℚ → ℚ
  cos : ℚ → ℚ

/-- A possibly-NaN `f64`: `none` models NaN, `some q` models an ordinary
(finite) value.  In the embedded kernel NaN only enters through the
`f64::NAN` sentinel of `project_points_onto_ray` and through hit distances
supplied by arbitrary `RayTraceObject` implementations. -/
def FQ : Type := Option ℚ
deriving DecidableEq, Repr

/-- IEEE `<` on possibly-NaN values: any comparison with NaN is false. -/
def fqLt (a b : FQ) : Bool :=
  match a, b with
  | some a, some b => decide (a < b)
  | _, _ => false

/-- IEEE `>` on possibly-NaN values: any comparison with NaN is false. -/
def fqGt (a b : FQ) : Bool :=
  match a, b with
  | some a, some b => decide (b < a)
  | _, _ => false

/-- `f64::is_nan`. -/
def fqIsNan (a : FQ) : Bool := a.isNone

/-- `f64::min` as used in `get_first_hit` (both arguments are non-NaN
whenever the source calls it; the NaN cases follow IEEE `fmin`, which
returns the non-NaN operand). -/
def fqMin (a b : FQ) : FQ :=
  match a, b with
  | some a, some b => some (min a b)
  | some a, none => some a
  | none, some b => some b
  | none, none => none

/-- `f64::partial_cmp`: `none` when either operand is NaN. -/
def fqPartialCmp (a b : FQ) : Option Ordering :=
  match a, b with
  | some a, some b => some (if a < b then .lt else if b < a then .gt else .eq)
  | _, _ => none

/-- The largest finite `f64`, `f64::MAX` = (2^53 − 1) · 2^971. -/
def f64MAX : ℚ := (2 ^ 53 - 1) * 2 ^ 971

/-- Modelled from the spec: `RayTraceRay` (file `src/ray.rs` is not under
`src/`).  §3: "origin position (3 reals), direction (3 reals)", immutable
once constructed. -/
structure Ray where
  position : Vec3
  direction : Vec3
deriving DecidableEq, Repr

/-- Modelled from the spec: `RayTraceRay::get_position_on_ray` — the point
at parametric distance `d` along the ray, `origin + d * dir` ("origin placed
along the incoming ray just short of the hit distance", §4.3). -/
def Ray.get_position_on_ray (r : Ray) (d : ℚ) : Vec3 :=
  vec3_add r.position (vec3_scale r.direction d)

/-- Modelled from the spec: `RayTraceColor` (file `src/color.rs` is not
under `src/`) — an RGBA color with componentwise arithmetic (f32 in the
source, exact rationals here). -/
structure RColor where
  r : ℚ
  g : ℚ
  b : ℚ
  a : ℚ
deriving DecidableEq, Repr

/-- Modelled from the spec: `RayTraceColor::new()`, the zero color used as
the accumulator seed for jitter averaging. -/
def RColor.new : RColor := ⟨0, 0, 0, 0⟩

/-- Modelled from the spec: `RayTraceColor::new_with(r, g, b, a)`. -/
def RColor.new_with (r g b a : ℚ) : RColor := ⟨r, g, b, a⟩

/-- Componentwise color addition (`impl AddAssign for RayTraceColor`). -/
def RColor.add (c d : RColor) : RColor := ⟨c.r + d.r, c.g + d.g, c.b + d.b, c.a + d.a⟩

/-- Componentwise division of a color by a scalar (`color / ray_count`). -/
def RColor.div (c : RColor) (s : ℚ) : RColor := ⟨c.r / s, c.g / s, c.b / s, c.a / s⟩

/-- Componentwise scalar multiplication of a color. -/
def RColor.scale (c : RColor) (s : ℚ) : RColor := ⟨c.r * s, c.g * s, c.b * s, c.a * s⟩

/-- Modelled from the spec: `color::mix_color` (file `src/color.rs` is not
under `src/`).  §4.3: "linearly blend:
`result = materialColor*(1−reflectance) + reflectedColor*reflectance`". -/
def mix_color (material reflected : RColor) (t : ℚ) : RColor :=
  RColor.add (material.scale (1 - t)) (reflected.scale t)

/-- Modelled from the spec: `RayTraceMaterial` (its file is not under
`src/`) — a surface material carrying a base color and a reflectance
fraction (§3, glossary). -/
structure RMaterial where
  color : RColor
  reflectance : ℚ
deriving DecidableEq, Repr

/-- Modelled from the spec: `RayTraceMaterial::new(color)` — a material
with the given base color; reflectance defaults to `0` (non-reflective;
§4.3 treats nonzero reflectance as the opt-in reflective case). -/
def RMaterial.new (c : RColor) : RMaterial := ⟨c, 0⟩

/-- Modelled from the spec: `RayTraceRayHit` (file `src/hit.rs` is not
under `src/`).  §3: distance along the ray, hit position, outward surface
normal, and an owned copy of the surface material.  The distance is a
possibly-NaN value (`FQ`) because arbitrary object implementations may
return non-finite distances (§8, open question). -/
structure RayHit where
  distance : FQ
  position : Vec3
  normal : Vec3
  material : RMaterial
deriving DecidableEq, Repr

/-- `RayTraceRayHit::new(distance, position, normal, material)` for the
ordinary (non-NaN) distances produced by the `qube` intersection code. -/
def RayHit.new (d : ℚ) (pos n : Vec3) (m : RMaterial) : RayHit :=
  ⟨some d, pos, n, m⟩

/-! ### `src/aabb.rs` — axis-aligned bounding box -/

/-- `AABB` (src/aabb.rs): corners `start` and `end`; the constructor
establishes `start[i] ≤ end[i]` componentwise. -/
structure AABB where
  start : Vec3
  stop : Vec3
deriving DecidableEq, Repr

/-- `AABB::new(x1, x2)` — componentwise min/max of the two corners. -/
def AABB.new (x1 x2 : Vec3) : AABB :=
  ⟨⟨min x1.x x2.x, min x1.y x2.y, min x1.z x2.z⟩,
   ⟨max x1.x x2.x, max x1.y x2.y, max x1.z x2.z⟩⟩

/-- `AABB::expand(x)` — grow the box to contain `x`. -/
def AABB.expand (b : AABB) (v : Vec3) : AABB :=
  ⟨⟨min b.start.x v.x, min b.start.y v.y, min b.start.z v.z⟩,
   ⟨max b.stop.x v.x, max b.stop.y v.y, max b.stop.z v.z⟩⟩

/-- Result of `project_points_onto_ray` (src/aabb.rs:173): per axis either
the ordered pair of signed crossing distances, or `none` modelling the
`(f64::NAN, f64::NAN)` sentinel pair written when the ray direction
component on that axis has magnitude below `1e-10` (the source always sets
both entries of a pair together). -/
structure Proj where
  px : Option (ℚ × ℚ)
  py : Option (ℚ × ℚ)
  pz : Option (ℚ × ℚ)
deriving DecidableEq, Repr

/-- The per-axis body of the loop in `project_points_onto_ray`. -/
def projectAxis (rPos rDir lo hi : ℚ) : Option (ℚ × ℚ) :=
  if |rDir| < 1e-10 then
    none
  else if (hi - rPos) / rDir < (lo - rPos) / rDir then
    some ((hi - rPos) / rDir, (lo - rPos) / rDir)
  else
    some ((lo - rPos) / rDir, (hi - rPos) / rDir)

/-- `project_points_onto_ray(ray, (start, end))` (src/aabb.rs:173-199). -/
def project_points_onto_ray (ray : Ray) (lo hi : Vec3) : Proj :=
  ⟨projectAxis ray.position.x ray.direction.x lo.x hi.x,
   projectAxis ray.position.y ray.direction.y lo.y hi.y,
   projectAxis ray.position.z ray.direction.z lo.z hi.z⟩

/-- One axis block of `AABB::is_hit`: `none` models the early `return
false`; `some deg` records whether this axis was degenerate (NaN
projection), which clears the overlap-check flags involving it. -/
def isHitAxis (p : Option (ℚ × ℚ)) (origin lo hi : ℚ) : Option Bool :=
  match p with
  | none => if origin < lo ∨ hi < origin then none else some true
  | some (s, e) => if s < 0 ∧ e < 0 then none else some false

/-- The pairwise no-overlap test of `is_hit`, e.g.
`(y_start < x_start && y_end < x_start) || (y_start > x_end && y_end > x_end)`;
with a NaN operand every IEEE comparison is false, hence `false` when a
side is the NaN pair (the flags make that case unread anyway). -/
def slabsDisjoint (a b : Option (ℚ × ℚ)) : Bool :=
  match a, b with
  | some (as_, ae), some (bs, be) =>
    (decide (bs < as_) && decide (be < as_)) || (decide (bs > ae) && decide (be > ae))
  | _, _ => false

/-- The pairwise overlap checks ending `AABB::is_hit`
(src/aabb.rs:69-84), with the check flags cleared by the degenerate axes
(`check_xy = !xdeg && !ydeg` etc., mirroring the source's flag updates). -/
def isHitTail (p : Proj) (xdeg ydeg zdeg : Bool) : Bool :=
  let check_xy := !xdeg && !ydeg
  let check_xz := !xdeg && !zdeg
  let check_yz := !ydeg && !zdeg
  if check_xy && slabsDisjoint p.px p.py then false
  else if check_xz && slabsDisjoint p.px p.pz then false
  else if check_yz && slabsDisjoint p.py p.pz then false
  else true

/-- `AABB::is_hit(ray)` (src/aabb.rs:31-85); the source's locals
(`ray.get_position()` destructured into `x, y, z` and the projection
tuple) are inlined. -/
def AABB.is_hit (self : AABB) (ray : Ray) : Bool :=
  match isHitAxis (project_points_onto_ray ray self.start self.stop).px
          ray.position.x self.start.x self.stop.x,
        isHitAxis (project_points_onto_ray ray self.start self.stop).py
          ray.position.y self.start.y self.stop.y,
        isHitAxis (project_points_onto_ray ray self.start self.stop).pz
          ray.position.z self.start.z self.stop.z with
  | some xdeg, some ydeg, some zdeg =>
    isHitTail (project_points_onto_ray ray self.start self.stop) xdeg ydeg zdeg
  | _, _, _ => false

/-- One axis block of `AABB::get_first_hit`: as `isHitAxis` but also
updates the running minimum entry distance.  The first (x) axis assigns
`ray_min` directly; the later axes take the minimum with the running value
(`upd` distinguishes the two, mirroring the source). -/
def firstHitAxis (p : Option (ℚ × ℚ)) (origin lo hi : ℚ) (ray_min : ℚ)
    (upd : Bool) : Option (Bool × ℚ) :=
  match p with
  | none => if origin < lo ∨ hi < origin then none else some (true, ray_min)
  | some (s, e) =>
    if s < 0 ∧ e < 0 then none
    else if 0 ≤ s then some (false, if upd then min s ray_min else s)
    else some (false, if upd then min e ray_min else e)

/-- The pairwise overlap checks ending `AABB::get_first_hit`
(src/aabb.rs:145-160): the same checks as `isHitTail`, returning the
accumulated minimum distance on success. -/
def firstHitTail (p : Proj) (xdeg ydeg zdeg : Bool) (rmz : ℚ) : Option ℚ :=
  let check_xy := !xdeg && !ydeg
  let check_xz := !xdeg && !zdeg
  let check_yz := !ydeg && !zdeg
  if check_xy && slabsDisjoint p.px p.py then none
  else if check_xz && slabsDisjoint p.px p.pz then none
  else if check_yz && slabsDisjoint p.py p.pz then none
  else some rmz

/-- `AABB::get_first_hit(ray)` (src/aabb.rs:88-161): same rejection logic
as `is_hit` (each `none` models an early `return None`), additionally
returning the minimum non-negative axis entry distance (or the exit
distance when the origin is inside the slab), starting from `f64::MAX`. -/
def AABB.get_first_hit (self : AABB) (ray : Ray) : Option ℚ :=
  (firstHitAxis (project_points_onto_ray ray self.start self.stop).px
      ray.position.x self.start.x self.stop.x f64MAX false).bind fun xr =>
    (firstHitAxis (project_points_onto_ray ray self.start self.stop).py
        ray.position.y self.start.y self.stop.y xr.2 true).bind fun yr =>
      (firstHitAxis (project_points_onto_ray ray self.start self.stop).pz
          ray.position.z self.start.z self.stop.z yr.2 true).bind fun zr =>
        firstHitTail (project_points_onto_ray ray self.start self.stop) xr.1 yr.1 zr.1 zr.2

/-! ### `src/math_util.rs` — rotation matrices and the plane-hit solver -/

/-- `rotate_z(angle)` (src/math_util.rs:22). -/
def rotate_z (trig : Trig) (angle : ℚ) : Mat3 :=
  let sin := trig.sin angle
  let cos := trig.cos angle
  ⟨⟨cos, sin, 0⟩, ⟨-sin, cos, 0⟩, ⟨0, 0, 1⟩⟩

/-- `rotate_x(angle)` (src/math_util.rs:30). -/
def rotate_x (trig : Trig) (angle : ℚ) : Mat3 :=
  let sin := trig.sin angle
  let cos := trig.cos angle
  ⟨⟨1, 0, 0⟩, ⟨0, cos, sin⟩, ⟨0, -sin, cos⟩⟩

/-- `rotate_y(angle)` (src/math_util.rs:38). -/
def rotate_y (trig : Trig) (angle : ℚ) : Mat3 :=
  let sin := trig.sin angle
  let cos := trig.cos angle
  ⟨⟨cos, 0, -sin⟩, ⟨0, 1, 0⟩, ⟨sin, 0, cos⟩⟩

/-- `rotate_xyz(angle)` (src/math_util.rs:46-60): starts from the identity
and multiplies in the z, x, y rotations, each only when its angle component
is nonzero — so a zero rotation yields the identity without any call to the
trigonometric primitives. -/
def rotate_xyz (trig : Trig) (angle : Vec3) : Mat3 :=
  let rot := mat3_id
  let rot := if angle.z ≠ 0 then rotate_z trig angle.z else rot
  let rot := if angle.x ≠ 0 then row_mat3_mul (rotate_x trig angle.x) rot else rot
  let rot := if angle.y ≠ 0 then row_mat3_mul (rotate_y trig angle.y) rot else rot
  rot

/-- `THRESHOLD` (src/math_util.rs:70 and src/object/qube.rs:146). -/
def THRESHOLD : ℚ := 1e-10

/-- The 3×4 augmented matrix of the plane-hit linear system. -/
structure Mat34 where
  r0 : Vec4
  r1 : Vec4
  r2 : Vec4
deriving DecidableEq, Repr

/-- The augmented matrix
`[ray_dir | -vec1 | -vec2 | center - ray_pos]` built by both
`compute_plane_hit` (src/math_util.rs:78-82) and `get_plane_hit`
(src/object/qube.rs:154-158). -/
def buildMat (ray : Ray) (center vec1 vec2 : Vec3) : Mat34 :=
  ⟨⟨ray.direction.x, -vec1.x, -vec2.x, center.x - ray.position.x⟩,
   ⟨ray.direction.y, -vec1.y, -vec2.y, center.y - ray.position.y⟩,
   ⟨ray.direction.z, -vec1.z, -vec2.z, center.z - ray.position.z⟩⟩

/-- Column-0 pivoting/elimination stage (src/math_util.rs:84-111, verbatim
identical in src/object/qube.rs:162-191): `none` models the
`return None` when no row has a usable column-0 entry. -/
def elimCol0 (mat : Mat34) : Option Mat34 :=
  if |mat.r0.c0| < THRESHOLD then
    if |mat.r1.c0| < THRESHOLD then
      if |mat.r2.c0| < THRESHOLD then
        none
      else
        some ⟨mat.r2, mat.r1, mat.r0⟩
    else
      let m2 := if |mat.r2.c0| > THRESHOLD then
        vec4_sub mat.r2 (vec4_scale mat.r1 (mat.r2.c0 / mat.r1.c0)) else mat.r2
      some ⟨mat.r1, mat.r0, m2⟩
  else
    let m1 := if |mat.r1.c0| > THRESHOLD then
      vec4_sub mat.r1 (vec4_scale mat.r0 (mat.r1.c0 / mat.r0.c0)) else mat.r1
    let m2 := if |mat.r2.c0| > THRESHOLD then
      vec4_sub mat.r2 (vec4_scale mat.r0 (mat.r2.c0 / mat.r0.c0)) else mat.r2
    some ⟨mat.r0, m1, m2⟩

/-- Column-1 pivoting/elimination stage (src/math_util.rs:113-126, verbatim
identical in src/object/qube.rs:195-209). -/
def elimCol1 (mat : Mat34) : Option Mat34 :=
  if |mat.r1.c1| < THRESHOLD then
    if |mat.r2.c1| < THRESHOLD then
      none
    else
      some ⟨mat.r0, mat.r2, mat.r1⟩
  else
    let m2 := if |mat.r2.c1| > THRESHOLD then
      vec4_sub mat.r2 (vec4_scale mat.r1 (mat.r2.c1 / mat.r1.c1)) else mat.r2
    some ⟨mat.r0, mat.r1, m2⟩

/-- Back-substitution stage (src/math_util.rs:132-135, verbatim identical
in src/object/qube.rs:217-222). -/
def backSub (mat : Mat34) : Mat34 :=
  let m0 := vec4_sub mat.r0 (vec4_scale mat.r1 (mat.r0.c1 / mat.r1.c1))
  let m0 := vec4_sub m0 (vec4_scale mat.r2 (m0.c2 / mat.r2.c2))
  let m1 := vec4_sub mat.r1 (vec4_scale mat.r2 (mat.r1.c2 / mat.r2.c2))
  ⟨m0, m1, mat.r2⟩

/-- `compute_plane_hit(ray, center, vec1, vec2)` (src/math_util.rs:72-138):
the pivoted Gauss-Jordan solve for `(t, u, v)`. -/
def compute_plane_hit (ray : Ray) (center vec1 vec2 : Vec3) : Option (ℚ × ℚ × ℚ) :=
  match elimCol0 (buildMat ray center vec1 vec2) with
  | none => none
  | some m1 =>
    match elimCol1 m1 with
    | none => none
    | some m2 =>
      if |m2.r2.c2| < THRESHOLD then
        none
      else
        let m := backSub m2
        some (m.r0.c3 / m.r0.c0, m.r1.c3 / m.r1.c1, m.r2.c3 / m.r2.c2)

/-- `compute_reflected_ray(n, ray, distance)` (src/math_util.rs:140-144 and
its verbatim copy in src/render.rs:170-174): mirror-reflect the ray
direction about the normal and move the new origin just short of the hit
distance by `1e-10`. -/
def compute_reflected_ray (n : Vec3) (ray : Ray) (distance : ℚ) : Ray :=
  let d := ray.direction
  let r := vec3_sub d (vec3_scale n (2 * vec3_dot d n))
  ⟨ray.get_position_on_ray (distance - 1e-10), r⟩

/-- `vecmath::vec3_normalized` — scale by the inverse length; the square
root comes from the Rust standard library and is abstracted as the
parameter `sqrtQ`. -/
def vec3_normalized (sqrtQ : ℚ → ℚ) (v : Vec3) : Vec3 :=
  vec3_scale v (1 / sqrtQ (vec3_dot v v))

/-! ### `src/object/qube.rs` — the axis-aligned (rotatable) box object -/

/-- `WorkingData` of the qube (src/object/qube.rs:47-51): per-frame derived
geometry — the three rotated unit axes, the six face centers, and the
bounding box. -/
structure QubeData where
  plane_vec : Fin 3 → Vec3
  plane_center : Fin 6 → Vec3
  aabb : AABB

/-- `RayTraceObjectQube` (src/object/qube.rs:13-19). -/
structure Qube where
  material : RMaterial
  size : Vec3
  center : Vec3
  rotation : Vec3
  data : Option QubeData

/-- `RayTraceObjectQube::new(center, size, material)`
(src/object/qube.rs:23-31): rotation zero, no working data yet. -/
def Qube.new (center size : Vec3) (material : RMaterial) : Qube :=
  ⟨material, size, center, ⟨0, 0, 0⟩, none⟩

/-- `gen_aabb(center, size)` (src/object/qube.rs:42-45). -/
def gen_aabb (center size : Vec3) : AABB :=
  let dir := vec3_scale size (1.42 * 0.5)
  AABB.new (vec3_sub center dir) (vec3_add center dir)

/-- The working data computed by `RayTraceObjectQube::init`
(src/object/qube.rs:55-82). -/
def Qube.initData (trig : Trig) (q : Qube) : QubeData :=
  let plane_vec1 : Vec3 := ⟨1, 0, 0⟩
  let plane_vec2 : Vec3 := ⟨0, 1, 0⟩
  let plane_vec3 : Vec3 := ⟨0, 0, 1⟩
  let rot := rotate_xyz trig q.rotation
  let vec1 := row_mat3_transform rot plane_vec1
  let vec2 := row_mat3_transform rot plane_vec2
  let vec3 := row_mat3_transform rot plane_vec3
  let vec1_scaled := vec3_scale vec1 (0.5 * q.size.x)
  let vec2_scaled := vec3_scale vec2 (0.5 * q.size.y)
  let vec3_scaled := vec3_scale vec3 (0.5 * q.size.z)
  ⟨![vec1, vec2, vec3],
   ![vec3_add q.center vec1_scaled,
     vec3_sub q.center vec1_scaled,
     vec3_add q.center vec2_scaled,
     vec3_sub q.center vec2_scaled,
     vec3_add q.center vec3_scaled,
     vec3_sub q.center vec3_scaled],
   gen_aabb q.center q.size⟩

/-- `RayTraceObjectQube::init(frame)` stores the recomputed working data. -/
def Qube.init (trig : Trig) (q : Qube) : Qube :=
  { q with data := some (q.initData trig) }

/-- `RayTraceObjectQube::get_aabb` (src/object/qube.rs:84-90): panics
(modelled as `Except.error`) when `init` has not run. -/
def Qube.get_aabb (q : Qube) : Except String AABB :=
  match q.data with
  | some d => .ok d.aabb
  | none => .error "Qube was not initialized!"

/-- `get_plane_hit(ray, center, size, normal_vec, vec, v1, v2, material)`
(src/object/qube.rs:148-243): the same staged Gauss-Jordan solve as
`compute_plane_hit` (the elimination code is verbatim identical in the two
files), followed by the bounded-quad clip `|u| ≤ size[v1]*0.5`,
`|v| ≤ size[v2]*0.5` and the forward-hit test `distance > 0`. -/
def get_plane_hit (ray : Ray) (center : Vec3) (size : Vec3) (normal_vec : Vec3)
    (vec : Fin 3 → Vec3) (v1 v2 : Fin 3) (material : RMaterial) : Option RayHit :=
  match elimCol0 (buildMat ray center (vec v1) (vec v2)) with
  | none => none
  | some m1 =>
    match elimCol1 m1 with
    | none => none
    | some m2 =>
      if |m2.r2.c2| < THRESHOLD then
        none
      else
        let m := backSub m2
        if |m.r1.c3 / m.r1.c1| > size.idx v1 * 0.5 then
          none
        else if |m.r2.c3 / m.r2.c2| > size.idx v2 * 0.5 then
          none
        else
          let distance := m.r0.c3 / m.r0.c0
          if distance ≤ 0 then
            none
          else
            some (RayHit.new distance
              (vec3_add ray.position (vec3_scale ray.direction distance))
              normal_vec material)

/-- The body of `RayTraceObjectQube::next_hit` (src/object/qube.rs:92-143)
given the working data: six face tests keeping the closest valid hit.  The
state threads `(hit_distance, hit_ret)`; note the last face's branch
updates only `hit_ret`, exactly as the source does. -/
def Qube.next_hit_data (q : Qube) (d : QubeData) (ray : Ray) : Option RayHit :=
  let s0 : FQ × Option RayHit := (some f64MAX, none)
  let s1 := match get_plane_hit ray (d.plane_center 0) q.size (d.plane_vec 0)
      d.plane_vec 1 2 (RMaterial.new (RColor.new_with 1 0 0 1)) with
    | some hit => (hit.distance, some hit)
    | none => s0
  let s2 := match get_plane_hit ray (d.plane_center 1) q.size (vec3_neg (d.plane_vec 0))
      d.plane_vec 1 2 (RMaterial.new (RColor.new_with 0 1 0 1)) with
    | some hit => if fqLt hit.distance s1.1 then (hit.distance, some hit) else s1
    | none => s1
  let s3 := match get_plane_hit ray (d.plane_center 2) q.size (d.plane_vec 1)
      d.plane_vec 0 2 (RMaterial.new (RColor.new_with 0 0 1 1)) with
    | some hit => if fqLt hit.distance s2.1 then (hit.distance, some hit) else s2
    | none => s2
  let s4 := match get_plane_hit ray (d.plane_center 3) q.size (vec3_neg (d.plane_vec 1))
      d.plane_vec 0 2 (RMaterial.new (RColor.new_with 1 1 0 1)) with
    | some hit => if fqLt hit.distance s3.1 then (hit.distance, some hit) else s3
    | none => s3
  let s5 := match get_plane_hit ray (d.plane_center 4) q.size (d.plane_vec 2)
      d.plane_vec 0 1 (RMaterial.new (RColor.new_with 1 0 1 1)) with
    | some hit => if fqLt hit.distance s4.1 then (hit.distance, some hit) else s4
    | none => s4
  let s6 := match get_plane_hit ray (d.plane_center 5) q.size (vec3_neg (d.plane_vec 2))
      d.plane_vec 0 1 (RMaterial.new (RColor.new_with 0 1 1 1)) with
    | some hit => if fqLt hit.distance s5.1 then (s5.1, some hit) else s5
    | none => s5
  s6.2

/-- `RayTraceObjectQube::next_hit(ray)` (src/object/qube.rs:92-143): panics
(modelled as `Except.error`) when `init` has not run. -/
def Qube.next_hit (q : Qube) (ray : Ray) : Except String (Option RayHit) :=
  match q.data with
  | some d => .ok (q.next_hit_data d ray)
  | none => .error "Qube was not initialized!"

/-! ### `src/camera/perspective.rs` — the perspective camera -/

/-- `WorkingData` of the camera (src/camera/perspective.rs:23-27). -/
structure CamData where
  plane_vec : Vec3 × Vec3
  plane_offset : Vec3
  plane_normal : Vec3
deriving DecidableEq, Repr

/-- `RayTracerCameraPerspective` (src/camera/perspective.rs:10-21); the
optional animations are capabilities `frame ↦ value` (§6). -/
structure PCamera where
  position : Vec3
  rotation : Vec3
  width : ℚ
  height : ℚ
  distance : ℚ
  screen_width : ℚ
  screen_height : ℚ
  anim_pos : Option (Nat → Vec3)
  anim_rot : Option (Nat → Vec3)
  data : Option CamData

/-- `RayTracerCameraPerspective::new_with(screen, width, height, distance)`
(src/camera/perspective.rs:35-48). -/
def PCamera.new_with (screen_width screen_height : ℕ) (width height distance : ℚ) : PCamera :=
  ⟨⟨0, 0, 0⟩, ⟨0, 0, 0⟩, width, height, distance, screen_width, screen_height, none, none, none⟩

/-- `set_position` (src/camera/perspective.rs:50-53): also invalidates the
working data. -/
def PCamera.set_position (c : PCamera) (p : Vec3) : PCamera :=
  { c with position := p, data := none }

/-- `RayTracerCameraPerspective::init(frame)`
(src/camera/perspective.rs:79-100). -/
def PCamera.init (trig : Trig) (c : PCamera) (frame : Nat) : PCamera :=
  let c := match c.anim_pos with
    | some f => { c with position := f frame }
    | none => c
  let c := match c.anim_rot with
    | some f => { c with rotation := f frame }
    | none => c
  let plane_vec1 : Vec3 := ⟨c.width / c.screen_width, 0, 0⟩
  let plane_vec2 : Vec3 := ⟨0, -(c.height / c.screen_height), 0⟩
  let normal_vec : Vec3 := ⟨0, 0, -1⟩
  let rot := rotate_xyz trig c.rotation
  let plane_normal := row_mat3_transform rot normal_vec
  { c with data := some (CamData.mk
    (row_mat3_transform rot plane_vec1, row_mat3_transform rot plane_vec2)
    (vec3_scale plane_normal c.distance)
    plane_normal) }

/-- The body of `make_ray` (src/camera/perspective.rs:102-112) given the
working data. -/
def PCamera.make_ray_data (c : PCamera) (d : CamData) (sqrtQ : ℚ → ℚ) (x y : ℚ) : Ray :=
  let offset_x := vec3_scale d.plane_vec.1 (x - c.screen_width / 2)
  let offset_y := vec3_scale d.plane_vec.2 (y - c.screen_height / 2)
  let offset := vec3_add offset_x offset_y
  ⟨c.position, vec3_normalized sqrtQ (vec3_add d.plane_offset offset)⟩

/-- `RayTracerCameraPerspective::make_ray(x, y)`
(src/camera/perspective.rs:102-112): panics (modelled as `Except.error`)
when `init` has not run. -/
def PCamera.make_ray (c : PCamera) (sqrtQ : ℚ → ℚ) (x y : ℚ) : Except String Ray :=
  match c.data with
  | some d => .ok (c.make_ray_data d sqrtQ x y)
  | none => .error "Camera was not initialized!"

/-- `RayTracerCameraPerspective::get_direction`
(src/camera/perspective.rs:114-120): note that, unlike `make_ray`, the
uninitialized branch returns the zero vector instead of panicking. -/
def PCamera.get_direction (c : PCamera) : Vec3 :=
  match c.data with
  | some d => d.plane_normal
  | none => ⟨0, 0, 0⟩

/-! ### `src/render.rs` and `src/basic.rs` — the shading pipeline -/

/-- A scene object as consumed by the shading pipeline: the
`RayTraceObject` trait object after its per-frame `init` has run
(the `FrameScheduler` completes `init` before any intersection query,
§4.4), exposing `get_aabb` and `next_hit`. -/
structure RObject where
  get_aabb : Option AABB
  next_hit : Ray → Option RayHit

/-- `RayTraceJitter` (src/basic.rs:137-140) together with its sampling
method.  Modelled from the spec: the `apply` method called by
`compute_color` is not under `src/`; §4.3 says the rays go "through
perturbed sub-pixel positions (perturbation policy owned by the jitter
configuration)", so the policy is carried as a function field. -/
structure RJitter where
  size : ℚ
  ray_count : ℕ
  apply : ℚ → ℚ → ℚ × ℚ

/-- `RayTraceParams` (src/basic.rs:85-90) plus the optional shading
capability read by `compute_color_for_ray` via `params.get_shading()`
(src/render.rs:154).  The capability (§6) takes the ray, the hit and the
scene; its `params` argument is omitted here because it would make the
parameter type self-referential, and no claim depends on it. -/
structure RParams where
  ray_jitter : Option RJitter
  max_depth : ℕ
  background_color : RColor
  indirect_color : RColor
  shading : Option (Ray → RayHit → List RObject → RColor)

/-- The camera as consumed by `compute_color`: the `RayTraceCamera` trait
object after `init`, exposing `make_ray` (§6). -/
structure RCamera where
  make_ray : ℚ → ℚ → Ray

/-- The comparator closure of `ray_hits.sort_by` (src/render.rs:140-149):
`partial_cmp` on the distances, with non-comparable pairs (NaN) mapped to
`Ordering::Equal`. -/
def cmpHit (a b : RayHit) : Ordering :=
  match fqPartialCmp a.distance b.distance with
  | some ordering => ordering
  | none => .eq

/-- One insertion step of the Rust insertion sort, acting on the reversed
sorted run (head = rightmost element): the new element `v` shifts left past
each neighbour `u` while `cmp(v, u) == Less`, exactly as
`slice::sort_by` does on short slices. -/
def insRev (cmp : α → α → Ordering) (v : α) : List α → List α
  | [] => [v]
  | u :: r => if cmp v u = .lt then u :: insRev cmp v r else v :: u :: r

/-- Model of Rust `slice::sort_by`: stable insertion sort (the algorithm
`sort_by` runs on slices as short as every hit list arising here; for
comparators that are total preorders every stable sort agrees). -/
def sortRust (cmp : α → α → Ordering) (l : List α) : List α :=
  (l.foldl (fun r v => insRev cmp v r) []).reverse

/-- The per-object body of the hit-gathering loop
(src/render.rs:119-129): skip the object if its bounding volume rejects
the ray, otherwise keep its `next_hit` result. -/
def objectHit (obj : RObject) (ray : Ray) : List RayHit :=
  if (match obj.get_aabb with
      | some aabb => !(aabb.is_hit ray)
      | none => false) then []
  else
    match obj.next_hit ray with
    | some hit => [hit]
    | none => []

/-- The hit-collection loop of `compute_color_for_ray`
(src/render.rs:117-129): hits in scene-object order. -/
def gatherHits (scene : List RObject) (ray : Ray) : List RayHit :=
  scene.flatMap (fun obj => objectHit obj ray)

/-- The distance handed to `compute_reflected_ray` (src/render.rs:162).
Hit distances reaching the reflection step of the embedded code are always
finite; a NaN distance would flow into NaN ray coordinates in the source,
which the rational `Vec3` cannot carry, so the rational payload is
extracted.  No claim depends on reflecting at a non-finite distance. -/
def reflectDistance (d : FQ) : ℚ := d.getD 0

/-- `compute_color_for_ray(ray, scene, params, depth)`
(src/render.rs:109-168).  The recursion is well-founded by the measure
`max_depth + 1 − depth`: the recursive call happens only under
`¬ depth > max_depth` and increases `depth` — this is the termination
argument of claim C1.  The `[]` arm after sorting is unreachable since
sorting preserves nonemptiness. -/
def computeColorForRay (scene : List RObject) (params : RParams) (ray : Ray)
    (depth : ℕ) : RColor :=
  if _h : params.max_depth < depth then
    params.indirect_color
  else
    let ray_hits := gatherHits scene ray
    if ray_hits.isEmpty then
      if depth = 0 then params.background_color else params.indirect_color
    else
      match sortRust cmpHit ray_hits with
      | [] => params.indirect_color
      | hit :: _ =>
        let material_color := match params.shading with
          | some f => f ray hit scene
          | none => hit.material.color
        let reflectance := hit.material.reflectance
        if reflectance ≠ 0 then
          let reflected_ray := compute_reflected_ray hit.normal ray (reflectDistance hit.distance)
          let reflected_color := computeColorForRay scene params reflected_ray (depth + 1)
          mix_color material_color reflected_color reflectance
        else
          material_color
termination_by params.max_depth + 1 - depth
decreasing_by omega

/-- `compute_color(camera, scene, params, x, y)` (src/render.rs:84-107):
one centered ray without jitter, otherwise `ray_count` jittered rays
averaged with weight `1/ray_count`. -/
def compute_color (camera : RCamera) (scene : List RObject) (params : RParams)
    (x y : ℕ) : RColor :=
  match params.ray_jitter with
  | none =>
    let ray := camera.make_ray ((x : ℚ) + 0.5) ((y : ℚ) + 0.5)
    computeColorForRay scene params ray 0
  | some jitter =>
    let ray_count := jitter.ray_count
    (List.range ray_count).foldl (fun color _ =>
      let (jx, jy) := jitter.apply (x : ℚ) (y : ℚ)
      let ray := camera.make_ray jx jy
      let ray_color := computeColorForRay scene params ray 0
      RColor.add color (ray_color.div (ray_count : ℚ))) RColor.new

/-! ### Spec-side definitions
These definitions follow the words of the specification (not the source)
and are compared with the source-derived definitions above. -/

/-- IEEE `≤` on possibly-NaN values (false when either side is NaN). -/
def fqLe (a b : FQ) : Bool :=
  match a, b with
  | some a, some b => decide (a ≤ b)
  | _, _ => false

/-- The selection performed by `compute_color_for_ray` on the gathered
hits (src/render.rs:140-151): the first element of the sorted hit list
(`ray_hits.remove(0)` after `sort_by`). -/
def selectHit (hits : List RayHit) : Option RayHit :=
  (sortRust cmpHit hits).head?

/-- All hit distances are ordinary (non-NaN) values, i.e. every pair of
distances is comparable under `partial_cmp`. -/
def allSomeDist (l : List RayHit) : Prop := ∀ h ∈ l, h.distance.isSome = true

/-- The running "first minimum" of a hit list: the earliest element
attaining the minimal distance, computed as the source's selection would on
comparable distances. -/
def firstMinAcc (m : RayHit) (p : List RayHit) : RayHit :=
  p.foldl (fun m v => if fqLt v.distance m.distance then v else m) m

/-- Spec §4.1: two 1-D parameter intervals overlap. -/
def slabOverlap (a b : ℚ × ℚ) : Prop := a.1 ≤ b.2 ∧ b.1 ≤ a.2

/-- Spec §4.1, per axis: a degenerate axis (ray parallel to the slab)
degenerates to origin containment in `[start, end]`; a non-degenerate axis
misses when both crossing distances are negative. -/
def axisOk (p : Option (ℚ × ℚ)) (origin lo hi : ℚ) : Prop :=
  match p with
  | none => lo ≤ origin ∧ origin ≤ hi
  | some (s, e) => ¬(s < 0 ∧ e < 0)

/-- Spec §4.1: a pair of axes constrains the test only when both are
non-degenerate, and then their intervals must overlap. -/
def pairOk (a b : Option (ℚ × ℚ)) : Prop :=
  match a, b with
  | some ia, some ib => slabOverlap ia ib
  | _, _ => True

/-- The spec's (§4.1 / claim C4) characterization of the slab test: every
degenerate axis contains the origin, no non-degenerate axis has both
crossing distances negative, and the non-degenerate axes' intervals
pairwise overlap. -/
def isHitSpec (b : AABB) (ray : Ray) : Prop :=
  axisOk (project_points_onto_ray ray b.start b.stop).px ray.position.x b.start.x b.stop.x ∧
  axisOk (project_points_onto_ray ray b.start b.stop).py ray.position.y b.start.y b.stop.y ∧
  axisOk (project_points_onto_ray ray b.start b.stop).pz ray.position.z b.start.z b.stop.z ∧
  pairOk (project_points_onto_ray ray b.start b.stop).px
    (project_points_onto_ray ray b.start b.stop).py ∧
  pairOk (project_points_onto_ray ray b.start b.stop).px
    (project_points_onto_ray ray b.start b.stop).pz ∧
  pairOk (project_points_onto_ray ray b.start b.stop).py
    (project_points_onto_ray ray b.start b.stop).pz

/-! ### Concrete scenario inputs used by witnesses and counterexamples -/

/-- A stand-in for the trigonometric primitives in closed computations
(their values are irrelevant at zero rotation). -/
def trigZ : Trig := ⟨fun _ => 0, fun _ => 1⟩

/-- The end-to-end scene's qube (§8): axis-aligned, size `(2,2,2)`,
centered at the origin. -/
def e2eQube : Qube := Qube.new ⟨0, 0, 0⟩ ⟨2, 2, 2⟩ (RMaterial.new (RColor.new_with 1 1 1 1))

/-- The working data of the end-to-end qube after `init` under an
arbitrary `trig` (zero rotation never calls the trigonometry). -/
def e2eQubeData (trig : Trig) : QubeData := e2eQube.initData trig

/-- The end-to-end qube as the scene-object capability after `init`. -/
def e2eObject (trig : Trig) : RObject :=
  ⟨some (e2eQubeData trig).aabb, fun ray => e2eQube.next_hit_data (e2eQubeData trig) ray⟩

/-- The end-to-end camera: perspective, 1×1 screen, plane scale 1, plane
distance 1, placed at `(0,0,5)` (zero rotation: looking down `-z`),
initialized for frame 0. -/
def e2eCam (trig : Trig) : PCamera :=
  ((PCamera.new_with 1 1 1 1 1).set_position ⟨0, 0, 5⟩).init trig 0

/-- Extract the camera working data (present by construction after
`init`; the dummy is never reached). -/
def PCamera.dataOr (c : PCamera) : CamData :=
  c.data.getD ⟨(⟨0, 0, 0⟩, ⟨0, 0, 0⟩), ⟨0, 0, 0⟩, ⟨0, 0, 0⟩⟩

/-- The end-to-end camera as the camera capability consumed by
`compute_color`. -/
def e2eRCamera (trig : Trig) (sqrtQ : ℚ → ℚ) : RCamera :=
  ⟨fun x y => (e2eCam trig).make_ray_data ((e2eCam trig).dataOr) sqrtQ x y⟩

/-- End-to-end render parameters: `max_depth = 0`, no jitter, no shading
function, transparent background, white indirect color (the defaults of
`RayTraceParams::new`, src/basic.rs:94-101). -/
def e2eParams : RParams :=
  ⟨none, 0, RColor.new_with 0 0 0 0, RColor.new_with 1 1 1 1, none⟩

/-- The center ray of the end-to-end scene, as produced by the camera. -/
def e2eRay : Ray := ⟨⟨0, 0, 5⟩, ⟨0, 0, -1⟩⟩

/-- A hit with a given (possibly NaN) distance and irrelevant geometry,
for exercising the hit-selection order. -/
def mkHit (d : FQ) : RayHit := ⟨d, ⟨0, 0, 0⟩, ⟨0, 0, 0⟩, RMaterial.new (RColor.new_with 0 0 0 0)⟩

/-- Hit list with distances `[2, NaN, 1]` in scene order. -/
def nanHits : List RayHit := [mkHit (some 2), mkHit none, mkHit (some 1)]

/-- A camera capability whose ray through `(x, y)` starts at `(x, y, 5)`
and points down `-z` (a legitimate implementor of the camera contract). -/
def shiftCamera : RCamera := ⟨fun x y => ⟨⟨x, y, 5⟩, ⟨0, 0, -1⟩⟩⟩

/-- A jitter configuration with one sample whose perturbation policy moves
the sample 10 pixels right (a legitimate owner of the perturbation
policy per §4.3). -/
def shiftJitter : RJitter := ⟨0.2, 1, fun x y => (x + 10, y)⟩

/-- Parameters of the jitter counterexample, without jitter. -/
def cexParamsN : RParams :=
  ⟨none, 0, RColor.new_with 0 0 0 0, RColor.new_with 1 1 1 1, none⟩

/-- Parameters of the jitter counterexample, with the one-sample shifted
jitter configured. -/
def cexParamsJ : RParams :=
  { cexParamsN with ray_jitter := some shiftJitter }

/-- An uninitialized perspective camera (fresh from `new_with`, so
`data = none`). -/
def uninitCam : PCamera := PCamera.new_with 1 1 1 1 1

/-- An uninitialized qube (fresh from `new`, so `data = none`). -/
def uninitQube : Qube := Qube.new ⟨0, 0, 0⟩ ⟨2, 2, 2⟩ (RMaterial.new (RColor.new_with 1 1 1 1))

/-- A fully reflective mirror object that reports a hit at distance 1 for
every ray (an idealized parallel-mirror scene member). -/
def mirrorObject : RObject :=
  ⟨none, fun ray => some (RayHit.new 1 (ray.get_position_on_ray 1) ⟨0, 0, 1⟩
    ⟨RColor.new_with 1 1 1 1, 1⟩)⟩

/-! ### Theorems -/

/-- Depth cutoff of `compute_color_for_ray` (src/render.rs:112-114). -/
theorem ccfr_cutoff (scene : List RObject) (params : RParams) (ray : Ray) (depth : ℕ)
    (h : params.max_depth < depth) :
    computeColorForRay scene params ray depth = params.indirect_color := by
  rw [computeColorForRay.eq_def]
  simp [h]

/-- Blending with full reflectance yields the reflected color. -/
theorem mix_color_one (a b : RColor) : mix_color a b 1 = b := by
  cases a; cases b
  simp only [mix_color, RColor.scale, RColor.add, RColor.mk.injEq]
  norm_num

/-- Claim C1: the recursive shading function is total (it is accepted by
the termination checker with measure `max_depth + 1 − depth`); whenever
`depth > max_depth` it returns `indirect_color` independently of the
scene; and with `max_depth = 0` a ray whose selected hit is fully
reflective (`reflectance = 1.0`) resolves to exactly `indirect_color`. -/
theorem claim_C1_depth_cutoff (scene : List RObject) (params : RParams) (ray : Ray) :
    (∀ depth, params.max_depth < depth →
      computeColorForRay scene params ray depth = params.indirect_color ∧
      ∀ scene', computeColorForRay scene' params ray depth =
        computeColorForRay scene params ray depth) ∧
    (params.max_depth = 0 →
      ∀ hit rest, sortRust cmpHit (gatherHits scene ray) = hit :: rest →
        hit.material.reflectance = 1 →
        computeColorForRay scene params ray 0 = params.indirect_color) := by
  constructor
  · intro depth h
    refine ⟨ccfr_cutoff scene params ray depth h, fun scene' => ?_⟩
    rw [ccfr_cutoff scene params ray depth h, ccfr_cutoff scene' params ray depth h]
  · intro hmd hit rest hsort hrefl
    rw [computeColorForRay.eq_def]
    have hnd : ¬ params.max_depth < 0 := by omega
    rw [dif_neg hnd]
    have hne : (gatherHits scene ray).isEmpty = false := by
      cases hg : gatherHits scene ray with
      | nil => rw [hg] at hsort; simp [sortRust] at hsort
      | cons a l => simp
    simp only [hne, Bool.false_eq_true, if_false, hsort]
    have h1 : computeColorForRay scene params
        (compute_reflected_ray hit.normal ray (reflectDistance hit.distance)) 1 =
        params.indirect_color :=
      ccfr_cutoff _ _ _ _ (by omega)
    simp only [hrefl, h1, ne_eq, one_ne_zero, not_false_eq_true, if_true, mix_color_one]

/-- Witness for C1: a fully reflective mirror at distance 1, `max_depth =
0`; a primary ray and a too-deep secondary ray both resolve to
`indirect_color`. -/
theorem claim_C1_depth_cutoff_witness :
    computeColorForRay [mirrorObject] e2eParams e2eRay 0 = e2eParams.indirect_color ∧
    computeColorForRay [mirrorObject] e2eParams e2eRay 5 = e2eParams.indirect_color := by
  constructor
  · exact (claim_C1_depth_cutoff [mirrorObject] e2eParams e2eRay).2 rfl
      (RayHit.new 1 (e2eRay.get_position_on_ray 1) ⟨0, 0, 1⟩ ⟨RColor.new_with 1 1 1 1, 1⟩)
      [] rfl rfl
  · exact ((claim_C1_depth_cutoff [mirrorObject] e2eParams e2eRay).1 5 (by norm_num [e2eParams])).1

/-- Claim C5: a ray with no valid hit resolves to `background_color` for a
primary ray (`depth = 0`) and to `indirect_color` for a secondary ray
(`depth > 0`; for `depth > max_depth` the cutoff returns the same
`indirect_color`). -/
theorem claim_C5_miss_fallback (scene : List RObject) (params : RParams) (ray : Ray)
    (depth : ℕ) (hempty : gatherHits scene ray = []) :
    computeColorForRay scene params ray depth =
      if depth = 0 then params.background_color else params.indirect_color := by
  rw [computeColorForRay.eq_def]
  split_ifs with h1 h2 h2
  · omega
  · rfl
  · simp [hempty]
  · simp [hempty]

/-- Witness for C5: the empty scene produces no hit; the primary ray gets
the background color, a secondary ray the indirect color. -/
theorem claim_C5_miss_fallback_witness :
    computeColorForRay [] e2eParams e2eRay 0 = e2eParams.background_color ∧
    computeColorForRay [] e2eParams e2eRay 1 = e2eParams.indirect_color := by
  constructor
  · simpa using claim_C5_miss_fallback [] e2eParams e2eRay 0 rfl
  · simpa using claim_C5_miss_fallback [] e2eParams e2eRay 1 rfl

/-- Claim C6: every degenerate linear system makes the solver report no
intersection (`none`) rather than an error: (i) all three column-0 entries
(the ray direction) below `1e-10`; (ii) no usable pivot for column 1 after
the column-0 stage; (iii) final diagonal entry below `1e-10` after the
column-1 stage — for both `compute_plane_hit` (math_util) and
`get_plane_hit` (qube). -/
theorem claim_C6_degenerate_none (ray : Ray) (center vec1 vec2 size nv : Vec3)
    (vec : Fin 3 → Vec3) (v1 v2 : Fin 3) (mtl : RMaterial) :
    (|ray.direction.x| < THRESHOLD → |ray.direction.y| < THRESHOLD →
      |ray.direction.z| < THRESHOLD →
      compute_plane_hit ray center vec1 vec2 = none ∧
      get_plane_hit ray center size nv vec v1 v2 mtl = none) ∧
    (∀ m1, elimCol0 (buildMat ray center vec1 vec2) = some m1 →
      |m1.r1.c1| < THRESHOLD → |m1.r2.c1| < THRESHOLD →
      compute_plane_hit ray center vec1 vec2 = none) ∧
    (∀ m1, elimCol0 (buildMat ray center (vec v1) (vec v2)) = some m1 →
      |m1.r1.c1| < THRESHOLD → |m1.r2.c1| < THRESHOLD →
      get_plane_hit ray center size nv vec v1 v2 mtl = none) ∧
    (∀ m1 m2, elimCol0 (buildMat ray center vec1 vec2) = some m1 →
      elimCol1 m1 = some m2 → |m2.r2.c2| < THRESHOLD →
      compute_plane_hit ray center vec1 vec2 = none) ∧
    (∀ m1 m2, elimCol0 (buildMat ray center (vec v1) (vec v2)) = some m1 →
      elimCol1 m1 = some m2 → |m2.r2.c2| < THRESHOLD →
      get_plane_hit ray center size nv vec v1 v2 mtl = none) := by
  refine ⟨fun hx hy hz => ?_, fun m1 h0 h1 h2 => ?_, fun m1 h0 h1 h2 => ?_,
    fun m1 m2 h0 h1 h2 => ?_, fun m1 m2 h0 h1 h2 => ?_⟩
  · have e1 : elimCol0 (buildMat ray center vec1 vec2) = none := by
      unfold elimCol0 buildMat
      rw [if_pos hx, if_pos hy, if_pos hz]
    have e2 : elimCol0 (buildMat ray center (vec v1) (vec v2)) = none := by
      unfold elimCol0 buildMat
      rw [if_pos hx, if_pos hy, if_pos hz]
    constructor
    · unfold compute_plane_hit
      rw [e1]
    · unfold get_plane_hit
      rw [e2]
  · have e : elimCol1 m1 = none := by
      unfold elimCol1
      rw [if_pos h1, if_pos h2]
    unfold compute_plane_hit
    rw [h0]
    simp only [e]
  · have e : elimCol1 m1 = none := by
      unfold elimCol1
      rw [if_pos h1, if_pos h2]
    unfold get_plane_hit
    rw [h0]
    simp only [e]
  · unfold compute_plane_hit
    rw [h0]
    simp only [h1]
    rw [if_pos h2]
  · unfold get_plane_hit
    rw [h0]
    simp only [h1]
    rw [if_pos h2]

/-- Witness for C6: concrete degenerate systems — a zero ray direction (no
column-0 pivot), a basis vector collinear with the ray direction (no
column-1 pivot), and a zero second basis vector (zero final diagonal) —
all yield `none` from both solvers. -/
theorem claim_C6_degenerate_none_witness :
    compute_plane_hit ⟨⟨0, 0, 0⟩, ⟨0, 0, 0⟩⟩ ⟨0, 0, 0⟩ ⟨1, 0, 0⟩ ⟨0, 1, 0⟩ = none ∧
    get_plane_hit ⟨⟨0, 0, 0⟩, ⟨0, 0, 0⟩⟩ ⟨0, 0, 0⟩ ⟨2, 2, 2⟩ ⟨0, 0, 1⟩
      ![⟨1, 0, 0⟩, ⟨0, 1, 0⟩, ⟨0, 0, 1⟩] 0 1 (RMaterial.new (RColor.new_with 1 1 1 1)) = none ∧
    compute_plane_hit ⟨⟨0, 0, 0⟩, ⟨1, 0, 0⟩⟩ ⟨0, 0, 0⟩ ⟨-1, 0, 0⟩ ⟨0, 0, 0⟩ = none ∧
    get_plane_hit ⟨⟨0, 0, 0⟩, ⟨1, 0, 0⟩⟩ ⟨0, 0, 0⟩ ⟨2, 2, 2⟩ ⟨0, 0, 1⟩
      ![⟨-1, 0, 0⟩, ⟨0, 0, 0⟩, ⟨0, 0, 0⟩] 0 1 (RMaterial.new (RColor.new_with 1 1 1 1)) = none ∧
    compute_plane_hit ⟨⟨0, 0, 0⟩, ⟨1, 0, 0⟩⟩ ⟨0, 0, 0⟩ ⟨0, -1, 0⟩ ⟨0, 0, 0⟩ = none ∧
    get_plane_hit ⟨⟨0, 0, 0⟩, ⟨1, 0, 0⟩⟩ ⟨0, 0, 0⟩ ⟨2, 2, 2⟩ ⟨0, 0, 1⟩
      ![⟨0, -1, 0⟩, ⟨0, 0, 0⟩, ⟨0, 0, 0⟩] 0 1 (RMaterial.new (RColor.new_with 1 1 1 1)) = none := by
  have hz : |(0 : ℚ)| < THRESHOLD := by norm_num [THRESHOLD]
  refine ⟨?_, ?_, ?_, ?_, ?_, ?_⟩
  · exact ((claim_C6_degenerate_none ⟨⟨0, 0, 0⟩, ⟨0, 0, 0⟩⟩ ⟨0, 0, 0⟩ ⟨1, 0, 0⟩ ⟨0, 1, 0⟩
      ⟨2, 2, 2⟩ ⟨0, 0, 1⟩ ![⟨1, 0, 0⟩, ⟨0, 1, 0⟩, ⟨0, 0, 1⟩] 0 1
      (RMaterial.new (RColor.new_with 1 1 1 1))).1 hz hz hz).1
  · exact ((claim_C6_degenerate_none ⟨⟨0, 0, 0⟩, ⟨0, 0, 0⟩⟩ ⟨0, 0, 0⟩ ⟨1, 0, 0⟩ ⟨0, 1, 0⟩
      ⟨2, 2, 2⟩ ⟨0, 0, 1⟩ ![⟨1, 0, 0⟩, ⟨0, 1, 0⟩, ⟨0, 0, 1⟩] 0 1
      (RMaterial.new (RColor.new_with 1 1 1 1))).1 hz hz hz).2
  · exact (claim_C6_degenerate_none ⟨⟨0, 0, 0⟩, ⟨1, 0, 0⟩⟩ ⟨0, 0, 0⟩ ⟨-1, 0, 0⟩ ⟨0, 0, 0⟩
      ⟨2, 2, 2⟩ ⟨0, 0, 1⟩ ![⟨-1, 0, 0⟩, ⟨0, 0, 0⟩, ⟨0, 0, 0⟩] 0 1
      (RMaterial.new (RColor.new_with 1 1 1 1))).2.1
      ⟨⟨1, 1, 0, 0⟩, ⟨0, 0, 0, 0⟩, ⟨0, 0, 0, 0⟩⟩
      (by norm_num [elimCol0, buildMat, THRESHOLD]) hz hz
  · exact (claim_C6_degenerate_none ⟨⟨0, 0, 0⟩, ⟨1, 0, 0⟩⟩ ⟨0, 0, 0⟩ ⟨-1, 0, 0⟩ ⟨0, 0, 0⟩
      ⟨2, 2, 2⟩ ⟨0, 0, 1⟩ ![⟨-1, 0, 0⟩, ⟨0, 0, 0⟩, ⟨0, 0, 0⟩] 0 1
      (RMaterial.new (RColor.new_with 1 1 1 1))).2.2.1
      ⟨⟨1, 1, 0, 0⟩, ⟨0, 0, 0, 0⟩, ⟨0, 0, 0, 0⟩⟩
      (by norm_num [elimCol0, buildMat, THRESHOLD]) hz hz
  · exact (claim_C6_degenerate_none ⟨⟨0, 0, 0⟩, ⟨1, 0, 0⟩⟩ ⟨0, 0, 0⟩ ⟨0, -1, 0⟩ ⟨0, 0, 0⟩
      ⟨2, 2, 2⟩ ⟨0, 0, 1⟩ ![⟨0, -1, 0⟩, ⟨0, 0, 0⟩, ⟨0, 0, 0⟩] 0 1
      (RMaterial.new (RColor.new_with 1 1 1 1))).2.2.2.1
      ⟨⟨1, 0, 0, 0⟩, ⟨0, 1, 0, 0⟩, ⟨0, 0, 0, 0⟩⟩ ⟨⟨1, 0, 0, 0⟩, ⟨0, 1, 0, 0⟩, ⟨0, 0, 0, 0⟩⟩
      (by norm_num [elimCol0, buildMat, THRESHOLD])
      (by norm_num [elimCol1, THRESHOLD]) hz
  · exact (claim_C6_degenerate_none ⟨⟨0, 0, 0⟩, ⟨1, 0, 0⟩⟩ ⟨0, 0, 0⟩ ⟨0, -1, 0⟩ ⟨0, 0, 0⟩
      ⟨2, 2, 2⟩ ⟨0, 0, 1⟩ ![⟨0, -1, 0⟩, ⟨0, 0, 0⟩, ⟨0, 0, 0⟩] 0 1
      (RMaterial.new (RColor.new_with 1 1 1 1))).2.2.2.2
      ⟨⟨1, 0, 0, 0⟩, ⟨0, 1, 0, 0⟩, ⟨0, 0, 0, 0⟩⟩ ⟨⟨1, 0, 0, 0⟩, ⟨0, 1, 0, 0⟩, ⟨0, 0, 0, 0⟩⟩
      (by norm_num [elimCol0, buildMat, THRESHOLD])
      (by norm_num [elimCol1, THRESHOLD]) hz

/-- Claim C3: whenever the qube's planar-patch intersection reports a hit,
the solved in-plane coordinates `u`, `v` lie within the half extents
(`size[v]*0.5`), the solved distance `t` is strictly positive, and the
returned hit is exactly `(t, origin + t*dir, outward normal, material)`. -/
theorem claim_C3_plane_hit_sound (ray : Ray) (center size nv : Vec3) (vec : Fin 3 → Vec3)
    (v1 v2 : Fin 3) (mtl : RMaterial) (hit : RayHit)
    (h : get_plane_hit ray center size nv vec v1 v2 mtl = some hit) :
    ∃ m1 m2, elimCol0 (buildMat ray center (vec v1) (vec v2)) = some m1 ∧
      elimCol1 m1 = some m2 ∧ ¬ |m2.r2.c2| < THRESHOLD ∧
      |(backSub m2).r1.c3 / (backSub m2).r1.c1| ≤ size.idx v1 * 0.5 ∧
      |(backSub m2).r2.c3 / (backSub m2).r2.c2| ≤ size.idx v2 * 0.5 ∧
      0 < (backSub m2).r0.c3 / (backSub m2).r0.c0 ∧
      hit = RayHit.new ((backSub m2).r0.c3 / (backSub m2).r0.c0)
        (vec3_add ray.position
          (vec3_scale ray.direction ((backSub m2).r0.c3 / (backSub m2).r0.c0)))
        nv mtl := by
  unfold get_plane_hit at h
  cases h0 : elimCol0 (buildMat ray center (vec v1) (vec v2)) with
  | none => rw [h0] at h; simp at h
  | some m1 =>
    rw [h0] at h
    cases h1 : elimCol1 m1 with
    | none => simp only [h1] at h; simp at h
    | some m2 =>
      simp only [h1] at h
      refine ⟨m1, m2, rfl, h1, ?_⟩
      split_ifs at h with hth hu hv ht
      refine ⟨hth, not_lt.mp hu, not_lt.mp hv, not_le.mp ht, ?_⟩
      exact (Option.some.injEq _ _ ▸ h).symm

/-- Witness for C3: the `+z` face of the end-to-end qube hit by the center
ray — the theorem's conclusion holds at that concrete hit. -/
theorem claim_C3_plane_hit_sound_witness :
    ∃ m1 m2, elimCol0 (buildMat e2eRay ⟨0, 0, 1⟩
        (![(⟨1, 0, 0⟩ : Vec3), ⟨0, 1, 0⟩, ⟨0, 0, 1⟩] 0)
        (![(⟨1, 0, 0⟩ : Vec3), ⟨0, 1, 0⟩, ⟨0, 0, 1⟩] 1)) = some m1 ∧
      elimCol1 m1 = some m2 ∧ ¬ |m2.r2.c2| < THRESHOLD ∧
      |(backSub m2).r1.c3 / (backSub m2).r1.c1| ≤ Vec3.idx ⟨2, 2, 2⟩ 0 * 0.5 ∧
      |(backSub m2).r2.c3 / (backSub m2).r2.c2| ≤ Vec3.idx ⟨2, 2, 2⟩ 1 * 0.5 ∧
      0 < (backSub m2).r0.c3 / (backSub m2).r0.c0 ∧
      RayHit.new 4 ⟨0, 0, 1⟩ ⟨0, 0, 1⟩ (RMaterial.new (RColor.new_with 1 0 1 1)) =
        RayHit.new ((backSub m2).r0.c3 / (backSub m2).r0.c0)
          (vec3_add e2eRay.position
            (vec3_scale e2eRay.direction ((backSub m2).r0.c3 / (backSub m2).r0.c0)))
          ⟨0, 0, 1⟩ (RMaterial.new (RColor.new_with 1 0 1 1)) := by
  apply claim_C3_plane_hit_sound e2eRay ⟨0, 0, 1⟩ ⟨2, 2, 2⟩ ⟨0, 0, 1⟩
    ![⟨1, 0, 0⟩, ⟨0, 1, 0⟩, ⟨0, 0, 1⟩] 0 1 (RMaterial.new (RColor.new_with 1 0 1 1))
    (RayHit.new 4 ⟨0, 0, 1⟩ ⟨0, 0, 1⟩ (RMaterial.new (RColor.new_with 1 0 1 1)))
  have e0 : elimCol0 (buildMat e2eRay ⟨0, 0, 1⟩
      ((![⟨1, 0, 0⟩, ⟨0, 1, 0⟩, ⟨0, 0, 1⟩] : Fin 3 → Vec3) 0)
      ((![⟨1, 0, 0⟩, ⟨0, 1, 0⟩, ⟨0, 0, 1⟩] : Fin 3 → Vec3) 1)) =
      some ⟨⟨-1, 0, 0, -4⟩, ⟨0, 0, -1, 0⟩, ⟨0, -1, 0, 0⟩⟩ := by
    norm_num [elimCol0, buildMat, THRESHOLD, e2eRay]
  have e1 : elimCol1 ⟨⟨-1, 0, 0, -4⟩, ⟨0, 0, -1, 0⟩, ⟨0, -1, 0, 0⟩⟩ =
      some ⟨⟨-1, 0, 0, -4⟩, ⟨0, -1, 0, 0⟩, ⟨0, 0, -1, 0⟩⟩ := by
    norm_num [elimCol1, THRESHOLD]
  unfold get_plane_hit
  rw [e0]
  simp only [e1]
  norm_num [backSub, vec4_sub, vec4_scale, Vec3.idx, THRESHOLD, RayHit.new, e2eRay,
    vec3_add, vec3_scale]

/-- Claim C9 (amended): on an uninitialized camera, `make_ray` panics; on
an uninitialized qube, `get_aabb` and `next_hit` panic; but
`get_direction` on an uninitialized camera returns the zero vector (a
default value) instead of failing. -/
theorem claim_C9_uninit_amended (cam : PCamera) (q : Qube)
    (hc : cam.data = none) (hq : q.data = none) :
    (∀ sqrtQ x y, cam.make_ray sqrtQ x y = .error "Camera was not initialized!") ∧
    cam.get_direction = ⟨0, 0, 0⟩ ∧
    q.get_aabb = .error "Qube was not initialized!" ∧
    (∀ ray, q.next_hit ray = .error "Qube was not initialized!") := by
  refine ⟨fun sqrtQ x y => ?_, ?_, ?_, fun ray => ?_⟩
  · unfold PCamera.make_ray
    rw [hc]
  · unfold PCamera.get_direction
    rw [hc]
  · unfold Qube.get_aabb
    rw [hq]
  · unfold Qube.next_hit
    rw [hq]

/-- Witness for C9 (amended): the fresh camera and qube of the scenario
section, whose `data` fields are `none` by construction. -/
theorem claim_C9_uninit_amended_witness :
    uninitCam.make_ray (fun q => q) 0 0 = .error "Camera was not initialized!" ∧
    uninitCam.get_direction = ⟨0, 0, 0⟩ ∧
    uninitQube.get_aabb = .error "Qube was not initialized!" ∧
    uninitQube.next_hit e2eRay = .error "Qube was not initialized!" := by
  have h := claim_C9_uninit_amended uninitCam uninitQube rfl rfl
  exact ⟨h.1 (fun q => q) 0 0, h.2.1, h.2.2.1, h.2.2.2 e2eRay⟩

/-- Counterexample for C9 as stated: `get_direction` queried before `init`
does not fail — it returns the default zero vector. -/
theorem claim_C9_uninit_counterexample :
    uninitCam.data = none ∧ uninitCam.get_direction = ⟨0, 0, 0⟩ :=
  ⟨rfl, rfl⟩

/-- The axis block of `get_first_hit` applies exactly the rejection logic
of the axis block of `is_hit` (the extra component only tracks the running
minimum distance). -/
theorem firstHitAxis_fst (p : Option (ℚ × ℚ)) (origin lo hi rm : ℚ) (upd : Bool) :
    (firstHitAxis p origin lo hi rm upd).map Prod.fst = isHitAxis p origin lo hi := by
  cases p with
  | none =>
    simp only [firstHitAxis, isHitAxis]
    split_ifs <;> rfl
  | some se =>
    obtain ⟨s, e⟩ := se
    simp only [firstHitAxis, isHitAxis]
    split_ifs <;> rfl

/-- The two overlap-check tails reject under exactly the same
conditions. -/
theorem isHitTail_isSome (p : Proj) (x y z : Bool) (rm : ℚ) :
    isHitTail p x y z = (firstHitTail p x y z rm).isSome := by
  simp only [isHitTail, firstHitTail]
  split_ifs <;> rfl

/-- Claim C10: the boolean pre-filter `is_hit` and the first-hit-distance
query `get_first_hit` apply the same rejection conditions, so they agree on
whether the box is hit. -/
theorem claim_C10_is_hit_agrees (b : AABB) (ray : Ray) :
    b.is_hit ray = (b.get_first_hit ray).isSome := by
  unfold AABB.is_hit AABB.get_first_hit
  cases hx : firstHitAxis (project_points_onto_ray ray b.start b.stop).px
      ray.position.x b.start.x b.stop.x f64MAX false with
  | none =>
    have lx : isHitAxis (project_points_onto_ray ray b.start b.stop).px
        ray.position.x b.start.x b.stop.x = none := by
      rw [← firstHitAxis_fst _ _ _ _ f64MAX false, hx]; rfl
    simp [lx, hx]
  | some xr =>
    have lx : isHitAxis (project_points_onto_ray ray b.start b.stop).px
        ray.position.x b.start.x b.stop.x = some xr.1 := by
      rw [← firstHitAxis_fst _ _ _ _ f64MAX false, hx]; rfl
    simp only [lx, hx, Option.some_bind]
    cases hy : firstHitAxis (project_points_onto_ray ray b.start b.stop).py
        ray.position.y b.start.y b.stop.y xr.2 true with
    | none =>
      have ly : isHitAxis (project_points_onto_ray ray b.start b.stop).py
          ray.position.y b.start.y b.stop.y = none := by
        rw [← firstHitAxis_fst _ _ _ _ xr.2 true, hy]; rfl
      simp [ly, hy]
    | some yr =>
      have ly : isHitAxis (project_points_onto_ray ray b.start b.stop).py
          ray.position.y b.start.y b.stop.y = some yr.1 := by
        rw [← firstHitAxis_fst _ _ _ _ xr.2 true, hy]; rfl
      simp only [ly, hy, Option.some_bind]
      cases hz : firstHitAxis (project_points_onto_ray ray b.start b.stop).pz
          ray.position.z b.start.z b.stop.z yr.2 true with
      | none =>
        have lz : isHitAxis (project_points_onto_ray ray b.start b.stop).pz
            ray.position.z b.start.z b.stop.z = none := by
          rw [← firstHitAxis_fst _ _ _ _ yr.2 true, hz]; rfl
        simp [lz, hz]
      | some zr =>
        have lz : isHitAxis (project_points_onto_ray ray b.start b.stop).pz
            ray.position.z b.start.z b.stop.z = some zr.1 := by
          rw [← firstHitAxis_fst _ _ _ _ yr.2 true, hz]; rfl
        simp only [lz, hz, Option.some_bind]
        exact isHitTail_isSome _ _ _ _ zr.2

/-- The projected per-axis crossing distances are returned ordered,
`axis_start ≤ axis_end`. -/
theorem projectAxis_ordered (rPos rDir lo hi s e : ℚ)
    (h : projectAxis rPos rDir lo hi = some (s, e)) : s ≤ e := by
  unfold projectAxis at h
  split_ifs at h with h1 h2 <;>
    (simp only [Option.some.injEq, Prod.mk.injEq] at h; obtain ⟨rfl, rfl⟩ := h; linarith)

/-- The axis block of `is_hit` rejects exactly when the spec's per-axis
condition fails. -/
theorem isHitAxis_none_iff (p : Option (ℚ × ℚ)) (o lo hi : ℚ) :
    isHitAxis p o lo hi = none ↔ ¬ axisOk p o lo hi := by
  cases p with
  | none =>
    simp only [isHitAxis, axisOk]
    split_ifs with h
    · simp only [true_iff]
      intro ⟨h1, h2⟩
      rcases h with h | h <;> linarith
    · simp only [reduceCtorEq, false_iff, not_not]
      push_neg at h
      exact h
  | some se =>
    obtain ⟨s, e⟩ := se
    simp only [isHitAxis, axisOk]
    split_ifs with h <;> simp [h]

/-- A surviving axis block records whether the axis was degenerate. -/
theorem isHitAxis_some (p : Option (ℚ × ℚ)) (o lo hi : ℚ) (deg : Bool)
    (h : isHitAxis p o lo hi = some deg) : deg = p.isNone := by
  cases p with
  | none =>
    simp only [isHitAxis] at h
    split_ifs at h
    simp_all
  | some se =>
    obtain ⟨s, e⟩ := se
    simp only [isHitAxis] at h
    split_ifs at h
    simp_all

/-- For ordered intervals the source's two-sided no-overlap test is the
negation of interval overlap. -/
theorem slabsDisjoint_false_iff (s1 e1 s2 e2 : ℚ) (_h1 : s1 ≤ e1) (h2 : s2 ≤ e2) :
    (slabsDisjoint (some (s1, e1)) (some (s2, e2)) = false ↔ slabOverlap (s1, e1) (s2, e2)) := by
  simp only [slabsDisjoint, slabOverlap, Bool.or_eq_false_iff, Bool.and_eq_false_iff,
    decide_eq_false_iff_not, not_lt, gt_iff_lt]
  constructor
  · rintro ⟨hA, hB⟩
    constructor
    · rcases hA with h | h
      · linarith
      · exact h
    · rcases hB with h | h
      · exact h
      · linarith
  · rintro ⟨hA, hB⟩
    exact ⟨Or.inr hA, Or.inl hB⟩

/-- The overlap-check between two axes is passed exactly when the spec's
pair condition holds (degenerate axes disable the check, and the spec
imposes nothing on them). -/
theorem pair_flag_iff (a b : Option (ℚ × ℚ))
    (ha : ∀ s e, a = some (s, e) → s ≤ e) (hb : ∀ s e, b = some (s, e) → s ≤ e) :
    (((!a.isNone && !b.isNone) && slabsDisjoint a b) = false ↔ pairOk a b) := by
  cases a with
  | none => simp [pairOk]
  | some sa =>
    cases b with
    | none => simp [pairOk]
    | some sb =>
      obtain ⟨s1, e1⟩ := sa
      obtain ⟨s2, e2⟩ := sb
      simp only [Option.isNone_some, Bool.not_false, Bool.and_self, Bool.true_and, pairOk]
      exact slabsDisjoint_false_iff s1 e1 s2 e2 (ha s1 e1 rfl) (hb s2 e2 rfl)

/-- The tail of `is_hit` succeeds exactly when all three pair checks
pass. -/
theorem isHitTail_true_iff (p : Proj) (x y z : Bool) :
    (isHitTail p x y z = true ↔
      ((!x && !y) && slabsDisjoint p.px p.py) = false ∧
      ((!x && !z) && slabsDisjoint p.px p.pz) = false ∧
      ((!y && !z) && slabsDisjoint p.py p.pz) = false) := by
  simp only [isHitTail]
  split_ifs with c1 c2 c3 <;> simp_all

/-- `is_hit` agrees with the spec's slab-algorithm characterization
(general helper; claim C4 wraps this). -/
theorem is_hit_iff_spec (b : AABB) (ray : Ray) :
    b.is_hit ray = true ↔ isHitSpec b ray := by
  have hox : ∀ s e, (project_points_onto_ray ray b.start b.stop).px = some (s, e) → s ≤ e :=
    fun s e h => projectAxis_ordered _ _ _ _ _ _ h
  have hoy : ∀ s e, (project_points_onto_ray ray b.start b.stop).py = some (s, e) → s ≤ e :=
    fun s e h => projectAxis_ordered _ _ _ _ _ _ h
  have hoz : ∀ s e, (project_points_onto_ray ray b.start b.stop).pz = some (s, e) → s ≤ e :=
    fun s e h => projectAxis_ordered _ _ _ _ _ _ h
  unfold AABB.is_hit isHitSpec
  cases hx : isHitAxis (project_points_onto_ray ray b.start b.stop).px
      ray.position.x b.start.x b.stop.x with
  | none =>
    simp only []
    exact iff_of_false (by simp) (fun hc => (isHitAxis_none_iff _ _ _ _).mp hx hc.1)
  | some xdeg =>
    cases hy : isHitAxis (project_points_onto_ray ray b.start b.stop).py
        ray.position.y b.start.y b.stop.y with
    | none =>
      simp only []
      exact iff_of_false (by simp) (fun hc => (isHitAxis_none_iff _ _ _ _).mp hy hc.2.1)
    | some ydeg =>
      cases hz : isHitAxis (project_points_onto_ray ray b.start b.stop).pz
          ray.position.z b.start.z b.stop.z with
      | none =>
        simp only []
        exact iff_of_false (by simp) (fun hc => (isHitAxis_none_iff _ _ _ _).mp hz hc.2.2.1)
      | some zdeg =>
        have hax : axisOk (project_points_onto_ray ray b.start b.stop).px
            ray.position.x b.start.x b.stop.x := by
          by_contra hcon
          rw [(isHitAxis_none_iff _ _ _ _).mpr hcon] at hx
          exact Option.noConfusion hx
        have hay : axisOk (project_points_onto_ray ray b.start b.stop).py
            ray.position.y b.start.y b.stop.y := by
          by_contra hcon
          rw [(isHitAxis_none_iff _ _ _ _).mpr hcon] at hy
          exact Option.noConfusion hy
        have haz : axisOk (project_points_onto_ray ray b.start b.stop).pz
            ray.position.z b.start.z b.stop.z := by
          by_contra hcon
          rw [(isHitAxis_none_iff _ _ _ _).mpr hcon] at hz
          exact Option.noConfusion hz
        have dx := isHitAxis_some _ _ _ _ _ hx
        have dy := isHitAxis_some _ _ _ _ _ hy
        have dz := isHitAxis_some _ _ _ _ _ hz
        simp only []
        rw [isHitTail_true_iff, dx, dy, dz]
        rw [pair_flag_iff _ _ hox hoy, pair_flag_iff _ _ hox hoz, pair_flag_iff _ _ hoy hoz]
        simp [hax, hay, haz]

/-- Claim C4: `is_hit` implements the spec's slab algorithm — degenerate
axes reduce to origin containment, a non-degenerate axis with both
crossing distances negative rejects, and the non-degenerate axes'
intervals must pairwise overlap. -/
theorem claim_C4_slab_algorithm (b : AABB) (ray : Ray) :
    b.is_hit ray = true ↔ isHitSpec b ray :=
  is_hit_iff_spec b ray

/-- The sort comparator orders `a` strictly before `b` exactly when the
distances are comparable and strictly ordered. -/
theorem cmpHit_lt_iff (a b : RayHit) :
    (cmpHit a b = .lt) ↔ fqLt a.distance b.distance = true := by
  cases ha : a.distance <;> cases hb : b.distance <;>
    simp only [cmpHit, fqPartialCmp, fqLt, ha, hb] <;> simp

theorem fqLe_refl (a : FQ) (h : a.isSome = true) : fqLe a a = true := by
  cases a with
  | none => simp at h
  | some q => simp [fqLe]

theorem fqLe_of_lt (a b : FQ) (h : fqLt a b = true) : fqLe a b = true := by
  cases a <;> cases b <;> simp_all [fqLt, fqLe]
  all_goals linarith

theorem fq_lt_of_lt_of_le (a b c : FQ) (h1 : fqLt a b = true) (h2 : fqLe b c = true) :
    fqLt a c = true := by
  cases a <;> cases b <;> cases c <;> simp_all [fqLt, fqLe]
  all_goals linarith

theorem fq_lt_of_le_of_lt (a b c : FQ) (h1 : fqLe a b = true) (h2 : fqLt b c = true) :
    fqLt a c = true := by
  cases a <;> cases b <;> cases c <;> simp_all [fqLt, fqLe]
  all_goals linarith

theorem fq_le_trans (a b c : FQ) (h1 : fqLe a b = true) (h2 : fqLe b c = true) :
    fqLe a c = true := by
  cases a <;> cases b <;> cases c <;> simp_all [fqLe]
  all_goals linarith

theorem fq_total (a b : FQ) (ha : a.isSome = true) (hb : b.isSome = true)
    (h : fqLt a b = false) : fqLe b a = true := by
  cases a <;> cases b <;> simp_all [fqLt, fqLe]

theorem insRev_ne_nil (cmp : α → α → Ordering) (v : α) (r : List α) :
    insRev cmp v r ≠ [] := by
  cases r with
  | nil => simp [insRev]
  | cons u r' =>
    simp only [insRev]
    split_ifs <;> simp

theorem mem_insRev (cmp : α → α → Ordering) (v a : α) (r : List α) :
    a ∈ insRev cmp v r ↔ a = v ∨ a ∈ r := by
  induction r with
  | nil => simp [insRev]
  | cons u r' ih =>
    simp only [insRev]
    split_ifs with h
    all_goals simp only [List.mem_cons, ih]
    all_goals tauto

/-- The new element lands at the head of the (reversed) run exactly when
the comparator orders it strictly before every element of the run. -/
theorem getLast?_cons_ne (a : α) (l : List α) (h : l ≠ []) :
    (a :: l).getLast? = l.getLast? := by
  cases l with
  | nil => exact absurd rfl h
  | cons b m => exact List.getLast?_cons_cons

theorem getLast?_insRev (cmp : α → α → Ordering) (v : α) (r : List α) :
    (insRev cmp v r).getLast? =
      if ∀ u ∈ r, cmp v u = .lt then some v else r.getLast? := by
  induction r with
  | nil => simp [insRev]
  | cons u r' ih =>
    by_cases h : cmp v u = .lt
    · rw [insRev, if_pos h, getLast?_cons_ne _ _ (insRev_ne_nil cmp v r'), ih]
      by_cases hall : ∀ w ∈ r', cmp v w = .lt
      · rw [if_pos hall, if_pos ?_]
        intro w hw
        rcases List.mem_cons.mp hw with rfl | hw
        · exact h
        · exact hall w hw
      · have hr' : r' ≠ [] := by
          rintro rfl
          exact hall (by simp)
        rw [if_neg hall, if_neg ?_, getLast?_cons_ne u r' hr']
        intro hc
        exact hall fun w hw => hc w (List.mem_cons_of_mem u hw)
    · rw [insRev, if_neg h, List.getLast?_cons_cons, if_neg ?_]
      intro hc
      exact h (hc u (List.mem_cons_self u r'))

/-- The invariant of the insertion fold of `sort_by`: starting from a
(reversed) run whose last element `m` is a minimal element of the run, the
last element after folding in `p` is the running first-minimum, and it is
minimal among everything seen. -/
theorem sortFold_spec (p : List RayHit) :
    ∀ (r : List RayHit) (m : RayHit),
    (∀ h ∈ p, h.distance.isSome = true) → (∀ h ∈ r, h.distance.isSome = true) →
    r.getLast? = some m → (∀ u ∈ r, fqLe m.distance u.distance = true) →
    ((p.foldl (fun acc v => insRev cmpHit v acc) r).getLast? = some (firstMinAcc m p) ∧
     (∀ u ∈ r, fqLe (firstMinAcc m p).distance u.distance = true) ∧
     (∀ u ∈ p, fqLe (firstMinAcc m p).distance u.distance = true)) := by
  induction p with
  | nil =>
    intro r m _ _ hlast hmin
    exact ⟨hlast, hmin, by simp⟩
  | cons v p' ih =>
    intro r m hp hr hlast hmin
    have hm_mem : m ∈ r := List.mem_of_mem_getLast? (by rw [hlast]; rfl)
    have hm_some : m.distance.isSome = true := hr m hm_mem
    have hv_some : v.distance.isSome = true := hp v (List.mem_cons_self v p')
    have hcond : (∀ u ∈ r, cmpHit v u = .lt) ↔ fqLt v.distance m.distance = true := by
      constructor
      · intro hall
        exact (cmpHit_lt_iff v m).mp (hall m hm_mem)
      · intro hlt u hu
        exact (cmpHit_lt_iff v u).mpr (fq_lt_of_lt_of_le _ _ _ hlt (hmin u hu))
    have hr' : ∀ h ∈ insRev cmpHit v r, h.distance.isSome = true := by
      intro h hh
      rcases (mem_insRev cmpHit v h r).mp hh with rfl | hh
      · exact hv_some
      · exact hr h hh
    set m' := if fqLt v.distance m.distance = true then v else m with hm'
    have hm'_cases : m' = v ∨ m' = m := by
      rw [hm']; split_ifs <;> simp
    have hlast' : (insRev cmpHit v r).getLast? = some m' := by
      rw [getLast?_insRev]
      rw [hm']
      split_ifs with h1 h2 h2
      · rfl
      · exact absurd (hcond.mp h1) (by simp [h2])
      · exact absurd (hcond.mpr h2) h1
      · exact hlast
    have hmin' : ∀ u ∈ insRev cmpHit v r, fqLe m'.distance u.distance = true := by
      intro u hu
      rcases (mem_insRev cmpHit v u r).mp hu with rfl | hu
      · rw [hm']
        split_ifs with h1
        · exact fqLe_refl _ hv_some
        · exact fq_total _ _ hv_some hm_some (by simpa using h1)
      · rw [hm']
        split_ifs with h1
        · exact fqLe_of_lt _ _ (fq_lt_of_lt_of_le _ _ _ h1 (hmin u hu))
        · exact hmin u hu
    have hstep := ih (insRev cmpHit v r) m' (fun h hh => hp h (List.mem_cons_of_mem v hh))
      hr' hlast' hmin'
    have hfm : firstMinAcc m (v :: p') = firstMinAcc m' p' := by
      simp only [firstMinAcc, List.foldl_cons, hm']
    refine ⟨?_, ?_, ?_⟩
    · rw [List.foldl_cons, hfm]
      exact hstep.1
    · intro u hu
      rw [hfm]
      exact hstep.2.1 u ((mem_insRev cmpHit v u r).mpr (Or.inr hu))
    · intro u hu
      rw [hfm]
      rcases List.mem_cons.mp hu with rfl | hu
      · exact hstep.2.1 u ((mem_insRev cmpHit u u r).mpr (Or.inl rfl))
      · exact hstep.2.2 u hu

/-- With all distances comparable, the selected hit is the running
first-minimum of the gathered list and is minimal. -/
theorem selectHit_eq_firstMin (h : RayHit) (t : List RayHit)
    (hs : ∀ u ∈ h :: t, u.distance.isSome = true) :
    selectHit (h :: t) = some (firstMinAcc h t) ∧
    (∀ u ∈ h :: t, fqLe (firstMinAcc h t).distance u.distance = true) := by
  have hh : h.distance.isSome = true := hs h (List.mem_cons_self h t)
  have hfold := sortFold_spec t [h] h (fun u hu => hs u (List.mem_cons_of_mem h hu))
    (by intro u hu; simp at hu; rw [hu]; exact hh) (by rfl)
    (by intro u hu; simp at hu; rw [hu]; exact fqLe_refl _ hh)
  constructor
  · show (sortRust cmpHit (h :: t)).head? = _
    unfold sortRust
    rw [List.head?_reverse, List.foldl_cons]
    have : insRev cmpHit h [] = [h] := rfl
    rw [this]
    exact hfold.1
  · intro u hu
    rcases List.mem_cons.mp hu with rfl | hu
    · exact hfold.2.1 u (by simp)
    · exact hfold.2.2 u hu

/-- The running first-minimum sits at a position all of whose predecessors
have strictly larger distance (stability: the earliest minimum wins). -/
theorem firstMinAcc_decomp (t : List RayHit) :
    ∀ m : RayHit, (∀ u ∈ m :: t, u.distance.isSome = true) →
    ∃ pre post, m :: t = pre ++ firstMinAcc m t :: post ∧
      (∀ u ∈ pre, fqLt (firstMinAcc m t).distance u.distance = true) ∧
      (∀ u ∈ m :: t, fqLe (firstMinAcc m t).distance u.distance = true) := by
  induction t with
  | nil =>
    intro m hs
    refine ⟨[], [], by simp [firstMinAcc], by simp, ?_⟩
    intro u hu
    simp at hu
    rw [hu]
    exact fqLe_refl _ (hs m (by simp))
  | cons v t' ih =>
    intro m hs
    have hm_some : m.distance.isSome = true := hs m (by simp)
    have hv_some : v.distance.isSome = true := hs v (by simp)
    have hfm : firstMinAcc m (v :: t') =
        firstMinAcc (if fqLt v.distance m.distance = true then v else m) t' := by
      simp only [firstMinAcc, List.foldl_cons]
    by_cases hvm : fqLt v.distance m.distance = true
    · obtain ⟨pre', post', hdec, hpre, hminall⟩ := ih v (by
        intro u hu
        rcases List.mem_cons.mp hu with rfl | hu
        · exact hv_some
        · exact hs u (by simp [hu]))
      rw [if_pos hvm] at hfm
      refine ⟨m :: pre', post', ?_, ?_, ?_⟩
      · rw [hfm, List.cons_append, ← hdec]
      · intro u hu
        rcases List.mem_cons.mp hu with rfl | hu
        · rw [hfm]
          exact fq_lt_of_le_of_lt _ _ _ (hminall v (by simp)) hvm
        · rw [hfm]
          exact hpre u hu
      · intro u hu
        rw [hfm]
        rcases List.mem_cons.mp hu with rfl | hu
        · exact fqLe_of_lt _ _ (fq_lt_of_le_of_lt _ _ _ (hminall v (by simp)) hvm)
        · exact hminall u hu
    · obtain ⟨pre', post', hdec, hpre, hminall⟩ := ih m (by
        intro u hu
        rcases List.mem_cons.mp hu with rfl | hu
        · exact hm_some
        · exact hs u (by simp [hu]))
      rw [if_neg hvm] at hfm
      have hmv : fqLe m.distance v.distance = true :=
        fq_total _ _ hv_some hm_some (by simpa using hvm)
      cases pre' with
      | nil =>
        simp only [List.nil_append] at hdec
        have hdm : firstMinAcc m t' = m := (List.cons.injEq _ _ _ _ ▸ hdec).1.symm
        refine ⟨[], v :: t', ?_, by simp, ?_⟩
        · rw [hfm, hdm]
          simp
        · intro u hu
          rw [hfm, hdm]
          rcases List.mem_cons.mp hu with rfl | hu
          · exact fqLe_refl _ hm_some
          · rcases List.mem_cons.mp hu with rfl | hu
            · exact hmv
            · have := hminall u (by simp [hu])
              rw [hdm] at this
              exact this
      | cons m'' pre'' =>
        simp only [List.cons_append] at hdec
        have hm'' : m'' = m := ((List.cons.injEq _ _ _ _).mp hdec).1.symm
        have ht' : t' = pre'' ++ firstMinAcc m t' :: post' :=
          ((List.cons.injEq _ _ _ _).mp hdec).2
        have hfm_lt_m : fqLt (firstMinAcc m t').distance m.distance = true := by
          have := hpre m'' (by simp)
          rw [hm''] at this
          exact this
        refine ⟨m :: v :: pre'', post', ?_, ?_, ?_⟩
        · rw [hfm, List.cons_append, List.cons_append, ← ht']
        · intro u hu
          rw [hfm]
          rcases List.mem_cons.mp hu with rfl | hu
          · exact hfm_lt_m
          · rcases List.mem_cons.mp hu with rfl | hu
            · exact fq_lt_of_lt_of_le _ _ _ hfm_lt_m hmv
            · exact hpre u (by simp [hu])
        · intro u hu
          rw [hfm]
          rcases List.mem_cons.mp hu with rfl | hu
          · exact fqLe_of_lt _ _ hfm_lt_m
          · rcases List.mem_cons.mp hu with rfl | hu
            · exact fqLe_of_lt _ _ (fq_lt_of_lt_of_le _ _ _ hfm_lt_m hmv)
            · exact hminall u (by simp [hu])

/-- Claim C2 (amended): on a non-empty gathered hit list whose distances
are all comparable (non-NaN), the selection (`sort_by` + `remove(0)`)
returns a hit of minimal distance, and every hit placed before it in scene
order has strictly larger distance — the earliest minimal hit wins.  (With
non-comparable distances present the selection can differ; see the
counterexample.) -/
theorem claim_C2_stable_min_selection (hits : List RayHit) (hne : hits ≠ [])
    (hs : ∀ u ∈ hits, u.distance.isSome = true) :
    ∃ sel pre post, selectHit hits = some sel ∧ hits = pre ++ sel :: post ∧
      (∀ u ∈ hits, fqLe sel.distance u.distance = true) ∧
      (∀ u ∈ pre, fqLt sel.distance u.distance = true) := by
  cases hits with
  | nil => exact absurd rfl hne
  | cons h t =>
    obtain ⟨hsel, hminsel⟩ := selectHit_eq_firstMin h t hs
    obtain ⟨pre, post, hdec, hpre, _⟩ := firstMinAcc_decomp t h hs
    exact ⟨firstMinAcc h t, pre, post, hsel, hdec, hminsel, hpre⟩

/-- Witness for C2 (amended): distances `[2, 1, 1]` — the selected hit is
the first hit of distance 1, its only predecessor has distance 2. -/
theorem claim_C2_stable_min_selection_witness :
    ∃ sel pre post,
      selectHit [mkHit (some 2), mkHit (some 1), mkHit (some 1)] = some sel ∧
      [mkHit (some 2), mkHit (some 1), mkHit (some 1)] = pre ++ sel :: post ∧
      (∀ u ∈ [mkHit (some 2), mkHit (some 1), mkHit (some 1)],
        fqLe sel.distance u.distance = true) ∧
      (∀ u ∈ pre, fqLt sel.distance u.distance = true) :=
  claim_C2_stable_min_selection _ (List.cons_ne_nil _ _)
    (by intro u hu; fin_cases hu <;> rfl)

/-- Counterexample for C2 as stated: with distances `[2, NaN, 1]` the
selection returns the hit of distance 2 even though the hit of distance 1
is strictly comparable to it and smaller — the NaN in between breaks the
global minimum property of the sort. -/
theorem claim_C2_counterexample :
    selectHit nanHits = some (mkHit (some 2)) ∧
    mkHit (some 1) ∈ nanHits ∧
    fqPartialCmp (mkHit (some 2)).distance (mkHit (some 1)).distance = some .gt := by
  refine ⟨rfl, by simp [nanHits], ?_⟩
  norm_num [fqPartialCmp, mkHit]

/-! Evaluation lemmas for the end-to-end scene (claims C7, C8).  The rays
of interest travel down `-z` from `z = 5`, entering through the qube's
`+z` face; `ox`, `oy` parametrize the ray origin in the screen plane. -/

theorem e2e_rot (trig : Trig) : rotate_xyz trig ⟨0, 0, 0⟩ = mat3_id := by
  norm_num [rotate_xyz]

theorem e2e_plane_vec (trig : Trig) :
    (e2eQubeData trig).plane_vec = ![⟨1, 0, 0⟩, ⟨0, 1, 0⟩, ⟨0, 0, 1⟩] := by
  funext i
  fin_cases i <;>
    norm_num [e2eQubeData, Qube.initData, e2eQube, Qube.new, e2e_rot,
      row_mat3_transform, mat3_id, vec3_dot]

theorem e2e_plane_center (trig : Trig) :
    (e2eQubeData trig).plane_center =
      ![⟨1, 0, 0⟩, ⟨-1, 0, 0⟩, ⟨0, 1, 0⟩, ⟨0, -1, 0⟩, ⟨0, 0, 1⟩, ⟨0, 0, -1⟩] := by
  funext i
  fin_cases i <;>
    norm_num [e2eQubeData, Qube.initData, e2eQube, Qube.new, e2e_rot,
      row_mat3_transform, mat3_id, vec3_dot, vec3_scale, vec3_add, vec3_sub]

theorem e2e_aabb (trig : Trig) :
    (e2eQubeData trig).aabb =
      ⟨⟨-(71/50), -(71/50), -(71/50)⟩, ⟨71/50, 71/50, 71/50⟩⟩ := by
  norm_num [e2eQubeData, Qube.initData, e2eQube, Qube.new, gen_aabb, AABB.new,
    vec3_scale, vec3_add, vec3_sub]

/-- Faces `±x` of the e2e qube: the linear system is singular for a ray
down `-z` (columns 0 and 2 coincide) — no hit reported. -/
theorem e2e_face_x (ox oy cx : ℚ) (nv : Vec3) (mtl : RMaterial) :
    get_plane_hit ⟨⟨ox, oy, 5⟩, ⟨0, 0, -1⟩⟩ ⟨cx, 0, 0⟩ ⟨2, 2, 2⟩ nv
      ![⟨1, 0, 0⟩, ⟨0, 1, 0⟩, ⟨0, 0, 1⟩] 1 2 mtl = none := by
  have e0 : elimCol0 (buildMat ⟨⟨ox, oy, 5⟩, ⟨0, 0, -1⟩⟩ ⟨cx, 0, 0⟩
      ((![⟨1, 0, 0⟩, ⟨0, 1, 0⟩, ⟨0, 0, 1⟩] : Fin 3 → Vec3) 1)
      ((![⟨1, 0, 0⟩, ⟨0, 1, 0⟩, ⟨0, 0, 1⟩] : Fin 3 → Vec3) 2)) =
      some ⟨⟨-1, 0, -1, -5⟩, ⟨0, -1, 0, -oy⟩, ⟨0, 0, 0, cx - ox⟩⟩ := by
    norm_num [elimCol0, buildMat, THRESHOLD]
  have e1 : elimCol1 ⟨⟨-1, 0, -1, -5⟩, ⟨0, -1, 0, -oy⟩, ⟨0, 0, 0, cx - ox⟩⟩ =
      some ⟨⟨-1, 0, -1, -5⟩, ⟨0, -1, 0, -oy⟩, ⟨0, 0, 0, cx - ox⟩⟩ := by
    norm_num [elimCol1, THRESHOLD]
  unfold get_plane_hit
  rw [e0]
  simp only [e1]
  rw [if_pos (by norm_num [THRESHOLD])]

/-- Faces `±y` of the e2e qube: singular for a ray down `-z` — no hit. -/
theorem e2e_face_y (ox oy cy : ℚ) (nv : Vec3) (mtl : RMaterial) :
    get_plane_hit ⟨⟨ox, oy, 5⟩, ⟨0, 0, -1⟩⟩ ⟨0, cy, 0⟩ ⟨2, 2, 2⟩ nv
      ![⟨1, 0, 0⟩, ⟨0, 1, 0⟩, ⟨0, 0, 1⟩] 0 2 mtl = none := by
  have e0 : elimCol0 (buildMat ⟨⟨ox, oy, 5⟩, ⟨0, 0, -1⟩⟩ ⟨0, cy, 0⟩
      ((![⟨1, 0, 0⟩, ⟨0, 1, 0⟩, ⟨0, 0, 1⟩] : Fin 3 → Vec3) 0)
      ((![⟨1, 0, 0⟩, ⟨0, 1, 0⟩, ⟨0, 0, 1⟩] : Fin 3 → Vec3) 2)) =
      some ⟨⟨-1, 0, -1, -5⟩, ⟨0, 0, 0, cy - oy⟩, ⟨0, -1, 0, -ox⟩⟩ := by
    norm_num [elimCol0, buildMat, THRESHOLD]
  have e1 : elimCol1 ⟨⟨-1, 0, -1, -5⟩, ⟨0, 0, 0, cy - oy⟩, ⟨0, -1, 0, -ox⟩⟩ =
      some ⟨⟨-1, 0, -1, -5⟩, ⟨0, -1, 0, -ox⟩, ⟨0, 0, 0, cy - oy⟩⟩ := by
    norm_num [elimCol1, THRESHOLD]
  unfold get_plane_hit
  rw [e0]
  simp only [e1]
  rw [if_pos (by norm_num [THRESHOLD])]

/-- Faces `±z` of the e2e qube for a ray down `-z` from `z = 5` with
in-bounds screen coordinates: hit at `t = 5 - cz`. -/
theorem e2e_face_z (ox oy cz : ℚ) (nv : Vec3) (mtl : RMaterial)
    (hx : |ox| ≤ 1) (hy : |oy| ≤ 1) (hz : cz < 5) :
    get_plane_hit ⟨⟨ox, oy, 5⟩, ⟨0, 0, -1⟩⟩ ⟨0, 0, cz⟩ ⟨2, 2, 2⟩ nv
      ![⟨1, 0, 0⟩, ⟨0, 1, 0⟩, ⟨0, 0, 1⟩] 0 1 mtl =
    some (RayHit.new (5 - cz) ⟨ox, oy, cz⟩ nv mtl) := by
  have e0 : elimCol0 (buildMat ⟨⟨ox, oy, 5⟩, ⟨0, 0, -1⟩⟩ ⟨0, 0, cz⟩
      ((![⟨1, 0, 0⟩, ⟨0, 1, 0⟩, ⟨0, 0, 1⟩] : Fin 3 → Vec3) 0)
      ((![⟨1, 0, 0⟩, ⟨0, 1, 0⟩, ⟨0, 0, 1⟩] : Fin 3 → Vec3) 1)) =
      some ⟨⟨-1, 0, 0, cz - 5⟩, ⟨0, 0, -1, -oy⟩, ⟨0, -1, 0, -ox⟩⟩ := by
    norm_num [elimCol0, buildMat, THRESHOLD]
  have e1 : elimCol1 ⟨⟨-1, 0, 0, cz - 5⟩, ⟨0, 0, -1, -oy⟩, ⟨0, -1, 0, -ox⟩⟩ =
      some ⟨⟨-1, 0, 0, cz - 5⟩, ⟨0, -1, 0, -ox⟩, ⟨0, 0, -1, -oy⟩⟩ := by
    norm_num [elimCol1, THRESHOLD]
  have eb : backSub ⟨⟨-1, 0, 0, cz - 5⟩, ⟨0, -1, 0, -ox⟩, ⟨0, 0, -1, -oy⟩⟩ =
      ⟨⟨-1, 0, 0, cz - 5⟩, ⟨0, -1, 0, -ox⟩, ⟨0, 0, -1, -oy⟩⟩ := by
    norm_num [backSub, vec4_sub, vec4_scale]
  unfold get_plane_hit
  rw [e0]
  simp only [e1]
  rw [if_neg (by norm_num [THRESHOLD]), eb]
  have hdx : (-ox) / (-1 : ℚ) = ox := by rw [neg_div_neg_eq, div_one]
  have hdy : (-oy) / (-1 : ℚ) = oy := by rw [neg_div_neg_eq, div_one]
  have hdt : (cz - 5) / (-1 : ℚ) = 5 - cz := by rw [div_neg, div_one]; ring
  dsimp only [Vec3.idx]
  rw [hdx, hdy, hdt]
  rw [if_neg (by norm_num; linarith [hx])]
  rw [if_neg (by norm_num; linarith [hy])]
  rw [if_neg (by push_neg; linarith)]
  simp only [RayHit.new, Option.some.injEq, RayHit.mk.injEq, vec3_add, vec3_scale,
    Vec3.mk.injEq]
  and_intros <;> first | trivial | ring

/-- The e2e qube's `next_hit` for an in-bounds ray down `-z`: the `+z`
face is struck at distance 4. -/
theorem e2e_next_hit (trig : Trig) (ox oy : ℚ) (hx : |ox| ≤ 1) (hy : |oy| ≤ 1) :
    (e2eObject trig).next_hit ⟨⟨ox, oy, 5⟩, ⟨0, 0, -1⟩⟩ =
      some (RayHit.new 4 ⟨ox, oy, 1⟩ ⟨0, 0, 1⟩ (RMaterial.new (RColor.new_with 1 0 1 1))) := by
  have h4 := e2e_face_z ox oy 1 ⟨0, 0, 1⟩ (RMaterial.new (RColor.new_with 1 0 1 1))
    hx hy (by norm_num)
  have h5 := e2e_face_z ox oy (-1) (vec3_neg ⟨0, 0, 1⟩) (RMaterial.new (RColor.new_with 0 1 1 1))
    hx hy (by norm_num)
  norm_num at h4 h5
  have c45 : fqLt (some (4 : ℚ)) (some f64MAX) = true := by
    norm_num [fqLt, f64MAX]
  have c64 : fqLt (some (6 : ℚ)) (some (4 : ℚ)) = false := by
    norm_num [fqLt]
  show e2eQube.next_hit_data (e2eQubeData trig) ⟨⟨ox, oy, 5⟩, ⟨0, 0, -1⟩⟩ = _
  unfold Qube.next_hit_data
  simp only [e2e_plane_vec, e2e_plane_center, show e2eQube.size = ⟨2, 2, 2⟩ from rfl]
  simp only [
    show (![(⟨1, 0, 0⟩ : Vec3), ⟨0, 1, 0⟩, ⟨0, 0, 1⟩]) 0 = ⟨1, 0, 0⟩ from rfl,
    show (![(⟨1, 0, 0⟩ : Vec3), ⟨0, 1, 0⟩, ⟨0, 0, 1⟩]) 1 = ⟨0, 1, 0⟩ from rfl,
    show (![(⟨1, 0, 0⟩ : Vec3), ⟨0, 1, 0⟩, ⟨0, 0, 1⟩]) 2 = ⟨0, 0, 1⟩ from rfl,
    show (![(⟨1, 0, 0⟩ : Vec3), ⟨-1, 0, 0⟩, ⟨0, 1, 0⟩, ⟨0, -1, 0⟩, ⟨0, 0, 1⟩, ⟨0, 0, -1⟩]) 0
      = ⟨1, 0, 0⟩ from rfl,
    show (![(⟨1, 0, 0⟩ : Vec3), ⟨-1, 0, 0⟩, ⟨0, 1, 0⟩, ⟨0, -1, 0⟩, ⟨0, 0, 1⟩, ⟨0, 0, -1⟩]) 1
      = ⟨-1, 0, 0⟩ from rfl,
    show (![(⟨1, 0, 0⟩ : Vec3), ⟨-1, 0, 0⟩, ⟨0, 1, 0⟩, ⟨0, -1, 0⟩, ⟨0, 0, 1⟩, ⟨0, 0, -1⟩]) 2
      = ⟨0, 1, 0⟩ from rfl,
    show (![(⟨1, 0, 0⟩ : Vec3), ⟨-1, 0, 0⟩, ⟨0, 1, 0⟩, ⟨0, -1, 0⟩, ⟨0, 0, 1⟩, ⟨0, 0, -1⟩]) 3
      = ⟨0, -1, 0⟩ from rfl,
    show (![(⟨1, 0, 0⟩ : Vec3), ⟨-1, 0, 0⟩, ⟨0, 1, 0⟩, ⟨0, -1, 0⟩, ⟨0, 0, 1⟩, ⟨0, 0, -1⟩]) 4
      = ⟨0, 0, 1⟩ from rfl,
    show (![(⟨1, 0, 0⟩ : Vec3), ⟨-1, 0, 0⟩, ⟨0, 1, 0⟩, ⟨0, -1, 0⟩, ⟨0, 0, 1⟩, ⟨0, 0, -1⟩]) 5
      = ⟨0, 0, -1⟩ from rfl]
  simp only [e2e_face_x, e2e_face_y, h4, h5]
  simp only [RayHit.new, c45, c64]
  rfl

/-- `compute_color_for_ray` reads only `max_depth`, `background_color`,
`indirect_color` and the shading capability from the parameters — the
jitter configuration does not influence per-ray shading. -/
theorem ccfr_congr (scene : List RObject) (p q : RParams)
    (hmd : p.max_depth = q.max_depth) (hbg : p.background_color = q.background_color)
    (hind : p.indirect_color = q.indirect_color) (hsh : p.shading = q.shading) :
    ∀ (ray : Ray) (depth : ℕ),
      computeColorForRay scene p ray depth = computeColorForRay scene q ray depth := by
  suffices H : ∀ (n : ℕ) (ray : Ray) (depth : ℕ), p.max_depth + 1 - depth = n →
      computeColorForRay scene p ray depth = computeColorForRay scene q ray depth by
    exact fun ray depth => H _ ray depth rfl
  intro n
  induction n using Nat.strong_induction_on with
  | _ n ih =>
    intro ray depth hn
    rw [computeColorForRay.eq_def, computeColorForRay.eq_def, ← hmd, ← hbg, ← hind, ← hsh]
    by_cases h1 : p.max_depth < depth
    · rw [dif_pos h1, dif_pos h1]
    · rw [dif_neg h1, dif_neg h1]
      cases hs : sortRust cmpHit (gatherHits scene ray) with
      | nil => simp only [hs]
      | cons hit tail =>
        simp only [hs]
        by_cases hr : hit.material.reflectance ≠ 0
        · simp only [if_pos hr]
          have := ih (p.max_depth + 1 - (depth + 1)) (by omega)
            (compute_reflected_ray hit.normal ray (reflectDistance hit.distance))
            (depth + 1) rfl
          rw [this]
        · simp only [if_neg hr]

/-- Claim C8 (amended): for every one-sample jitter configuration, the
resolved pixel color equals the color resolved for the single ray traced
through `jitter.apply(x, y)` (the sample's average with weight `1/1`); in
particular, whenever the perturbation maps `(x, y)` to the pixel center
`(x + 0.5, y + 0.5)`, it equals the non-jittered result for that pixel. -/
theorem claim_C8_jitter_one_sample (camera : RCamera) (scene : List RObject)
    (params : RParams) (j : RJitter) (x y : ℕ) (hn : j.ray_count = 1) :
    (compute_color camera scene { params with ray_jitter := some j } x y =
      computeColorForRay scene { params with ray_jitter := some j }
        (camera.make_ray (j.apply (x : ℚ) (y : ℚ)).1 (j.apply (x : ℚ) (y : ℚ)).2) 0) ∧
    (j.apply (x : ℚ) (y : ℚ) = ((x : ℚ) + 0.5, (y : ℚ) + 0.5) →
      compute_color camera scene { params with ray_jitter := some j } x y =
      compute_color camera scene { params with ray_jitter := none } x y) := by
  have h1 : compute_color camera scene { params with ray_jitter := some j } x y =
      computeColorForRay scene { params with ray_jitter := some j }
        (camera.make_ray (j.apply (x : ℚ) (y : ℚ)).1 (j.apply (x : ℚ) (y : ℚ)).2) 0 := by
    unfold compute_color
    rcases hap : j.apply (x : ℚ) (y : ℚ) with ⟨jx, jy⟩
    simp only [hn, hap, show List.range 1 = [0] from rfl, List.foldl_cons, List.foldl_nil]
    generalize computeColorForRay scene _ (camera.make_ray jx jy) 0 = c
    cases c
    simp [RColor.new, RColor.add, RColor.div]
  refine ⟨h1, fun hc => ?_⟩
  rw [h1, hc]
  rw [ccfr_congr scene { params with ray_jitter := some j }
      { params with ray_jitter := none } rfl rfl rfl rfl]
  rfl

/-- Witness for C8 (amended): a concrete centered one-sample jitter — the
pixel color equals the color of its single sample ray, and coincides with
the non-jittered pixel color. -/
theorem claim_C8_jitter_one_sample_witness :
    (compute_color shiftCamera []
        { e2eParams with ray_jitter := some ⟨0.2, 1, fun a b => (a + 0.5, b + 0.5)⟩ } 0 0 =
      computeColorForRay []
        { e2eParams with ray_jitter := some ⟨0.2, 1, fun a b => (a + 0.5, b + 0.5)⟩ }
        (shiftCamera.make_ray
          ((RJitter.mk 0.2 1 (fun a b => (a + 0.5, b + 0.5))).apply
            ((0 : ℕ) : ℚ) ((0 : ℕ) : ℚ)).1
          ((RJitter.mk 0.2 1 (fun a b => (a + 0.5, b + 0.5))).apply
            ((0 : ℕ) : ℚ) ((0 : ℕ) : ℚ)).2) 0) ∧
    compute_color shiftCamera []
        { e2eParams with ray_jitter := some ⟨0.2, 1, fun a b => (a + 0.5, b + 0.5)⟩ } 0 0 =
      compute_color shiftCamera [] { e2eParams with ray_jitter := none } 0 0 := by
  have h := claim_C8_jitter_one_sample shiftCamera [] e2eParams
    ⟨0.2, 1, fun a b => (a + 0.5, b + 0.5)⟩ 0 0 rfl
  exact ⟨h.1, h.2 rfl⟩

/-- The e2e qube's bounding box accepts a `-z` ray whose origin lies over
the box. -/
theorem e2e_is_hit (ox oy : ℚ) (hx : |ox| ≤ 71 / 50) (hy : |oy| ≤ 71 / 50) :
    AABB.is_hit ⟨⟨-(71 / 50), -(71 / 50), -(71 / 50)⟩, ⟨71 / 50, 71 / 50, 71 / 50⟩⟩
      ⟨⟨ox, oy, 5⟩, ⟨0, 0, -1⟩⟩ = true := by
  obtain ⟨hx1, hx2⟩ := abs_le.mp hx
  obtain ⟨hy1, hy2⟩ := abs_le.mp hy
  have px : projectAxis ox 0 (-(71 / 50)) (71 / 50) = none := by
    norm_num [projectAxis]
  have py : projectAxis oy 0 (-(71 / 50)) (71 / 50) = none := by
    norm_num [projectAxis]
  have pz : projectAxis 5 (-1) (-(71 / 50)) (71 / 50) = some (179 / 50, 321 / 50) := by
    norm_num [projectAxis]
  rw [is_hit_iff_spec]
  unfold isHitSpec
  simp only [project_points_onto_ray]
  rw [px, py, pz]
  refine ⟨?_, ?_, ?_, ?_, ?_, ?_⟩
  · exact ⟨by linarith, by linarith⟩
  · exact ⟨by linarith, by linarith⟩
  · norm_num [axisOk]
  · exact trivial
  · exact trivial
  · exact trivial

/-- The e2e qube's bounding box rejects the shifted jitter ray (origin
`x = 10` outside the slab). -/
theorem e2e_is_hit_miss :
    AABB.is_hit ⟨⟨-(71 / 50), -(71 / 50), -(71 / 50)⟩, ⟨71 / 50, 71 / 50, 71 / 50⟩⟩
      ⟨⟨10, 0, 5⟩, ⟨0, 0, -1⟩⟩ = false := by
  have px : projectAxis 10 0 (-(71 / 50)) (71 / 50) = none := by
    norm_num [projectAxis]
  rw [Bool.eq_false_iff]
  intro ht
  have hc := (is_hit_iff_spec _ _).mp ht
  unfold isHitSpec at hc
  simp only [project_points_onto_ray] at hc
  rw [px] at hc
  have := hc.1
  simp only [axisOk] at this
  linarith [this.2]

/-- Gathered hits of the e2e scene for an in-bounds `-z` ray: exactly the
`+z`-face hit. -/
theorem e2e_gather_hit (trig : Trig) (ox oy : ℚ) (hx : |ox| ≤ 1) (hy : |oy| ≤ 1) :
    gatherHits [e2eObject trig] ⟨⟨ox, oy, 5⟩, ⟨0, 0, -1⟩⟩ =
      [RayHit.new 4 ⟨ox, oy, 1⟩ ⟨0, 0, 1⟩ (RMaterial.new (RColor.new_with 1 0 1 1))] := by
  have hb : AABB.is_hit ((e2eQubeData trig).aabb) ⟨⟨ox, oy, 5⟩, ⟨0, 0, -1⟩⟩ = true := by
    rw [e2e_aabb]
    exact e2e_is_hit ox oy (by linarith [abs_le.mp hx]; ) (by linarith [abs_le.mp hy])
  unfold gatherHits objectHit
  show (if (match (e2eObject trig).get_aabb with
      | some aabb => !(aabb.is_hit ⟨⟨ox, oy, 5⟩, ⟨0, 0, -1⟩⟩)
      | none => false) = true then ([] : List RayHit)
    else match (e2eObject trig).next_hit ⟨⟨ox, oy, 5⟩, ⟨0, 0, -1⟩⟩ with
      | some hit => [hit]
      | none => []) ++ [] = _
  show (if (!(AABB.is_hit ((e2eQubeData trig).aabb) ⟨⟨ox, oy, 5⟩, ⟨0, 0, -1⟩⟩)) = true
    then ([] : List RayHit)
    else match (e2eObject trig).next_hit ⟨⟨ox, oy, 5⟩, ⟨0, 0, -1⟩⟩ with
      | some hit => [hit]
      | none => []) ++ [] = _
  rw [hb, e2e_next_hit trig ox oy hx hy]
  rfl

/-- Gathered hits of the e2e scene for the shifted jitter ray: none (the
bounding volume rejects it). -/
theorem e2e_gather_miss (trig : Trig) :
    gatherHits [e2eObject trig] ⟨⟨10, 0, 5⟩, ⟨0, 0, -1⟩⟩ = [] := by
  have hb : AABB.is_hit ((e2eQubeData trig).aabb) ⟨⟨10, 0, 5⟩, ⟨0, 0, -1⟩⟩ = false := by
    rw [e2e_aabb]
    exact e2e_is_hit_miss
  unfold gatherHits objectHit
  show (if (!(AABB.is_hit ((e2eQubeData trig).aabb) ⟨⟨10, 0, 5⟩, ⟨0, 0, -1⟩⟩)) = true
    then ([] : List RayHit)
    else match (e2eObject trig).next_hit ⟨⟨10, 0, 5⟩, ⟨0, 0, -1⟩⟩ with
      | some hit => [hit]
      | none => []) ++ [] = _
  rw [hb]
  rfl

/-- Per-ray shading of the e2e scene for an in-bounds `-z` ray returns the
`+z` face's configured color. -/
theorem e2e_ccfr_hit (trig : Trig) (ox oy : ℚ) (hx : |ox| ≤ 1) (hy : |oy| ≤ 1) :
    computeColorForRay [e2eObject trig] e2eParams ⟨⟨ox, oy, 5⟩, ⟨0, 0, -1⟩⟩ 0 =
      RColor.new_with 1 0 1 1 := by
  rw [computeColorForRay.eq_def]
  rw [dif_neg (by norm_num [e2eParams])]
  simp only [e2e_gather_hit trig ox oy hx hy]
  rfl

/-- Per-ray shading of the e2e scene for the shifted jitter ray returns
the background color. -/
theorem e2e_ccfr_miss (trig : Trig) :
    computeColorForRay [e2eObject trig] e2eParams ⟨⟨10, 0, 5⟩, ⟨0, 0, -1⟩⟩ 0 =
      e2eParams.background_color := by
  rw [computeColorForRay.eq_def]
  rw [dif_neg (by norm_num [e2eParams])]
  simp only [e2e_gather_miss trig]
  rfl

/-- The e2e camera's working data after `init` (zero rotation, plane
scale 1, plane distance 1, 1×1 screen). -/
theorem e2e_cam_data (trig : Trig) :
    (e2eCam trig).dataOr = ⟨(⟨1, 0, 0⟩, ⟨0, -1, 0⟩), ⟨0, 0, -1⟩, ⟨0, 0, -1⟩⟩ := by
  norm_num [e2eCam, PCamera.init, PCamera.new_with, PCamera.set_position, PCamera.dataOr,
    e2e_rot, row_mat3_transform, mat3_id, vec3_dot, vec3_scale]

/-- The e2e camera's ray through the center of the single pixel. -/
theorem e2e_make_ray (trig : Trig) (sqrtQ : ℚ → ℚ) (hsq : sqrtQ 1 = 1) :
    (e2eRCamera trig sqrtQ).make_ray 0.5 0.5 = e2eRay := by
  show (e2eCam trig).make_ray_data ((e2eCam trig).dataOr) sqrtQ 0.5 0.5 = e2eRay
  rw [e2e_cam_data]
  unfold PCamera.make_ray_data vec3_normalized
  norm_num [vec3_add, vec3_scale, vec3_dot,
    show (e2eCam trig).screen_width = 1 from rfl,
    show (e2eCam trig).screen_height = 1 from rfl,
    show (e2eCam trig).position = ⟨0, 0, 5⟩ from rfl]
  rw [hsq]
  norm_num [e2eRay]

/-- Claim C7: the end-to-end scene — one axis-aligned 2×2×2 qube at the
origin, camera at `(0,0,5)` looking down `-z`, `max_depth = 0`, no jitter —
hits the `+z` face at distance `4.0` through the center pixel and resolves
to that face's configured color. -/
theorem claim_C7_end_to_end (trig : Trig) (sqrtQ : ℚ → ℚ) (hsq : sqrtQ 1 = 1) :
    (e2eObject trig).next_hit e2eRay =
      some (RayHit.new 4 ⟨0, 0, 1⟩ ⟨0, 0, 1⟩ (RMaterial.new (RColor.new_with 1 0 1 1))) ∧
    (e2eRCamera trig sqrtQ).make_ray 0.5 0.5 = e2eRay ∧
    compute_color (e2eRCamera trig sqrtQ) [e2eObject trig] e2eParams 0 0 =
      RColor.new_with 1 0 1 1 := by
  refine ⟨e2e_next_hit trig 0 0 (by norm_num) (by norm_num),
    e2e_make_ray trig sqrtQ hsq, ?_⟩
  unfold compute_color
  show computeColorForRay [e2eObject trig] e2eParams
    ((e2eRCamera trig sqrtQ).make_ray (((0 : ℕ) : ℚ) + 0.5) (((0 : ℕ) : ℚ) + 0.5)) 0 = _
  have hcast : (((0 : ℕ) : ℚ) + 0.5) = (0.5 : ℚ) := by norm_num
  rw [hcast, e2e_make_ray trig sqrtQ hsq]
  exact e2e_ccfr_hit trig 0 0 (by norm_num) (by norm_num)

/-- Witness for C7: the scenario instantiated with concrete trigonometric
and square-root stand-ins. -/
theorem claim_C7_end_to_end_witness :
    (e2eObject trigZ).next_hit e2eRay =
      some (RayHit.new 4 ⟨0, 0, 1⟩ ⟨0, 0, 1⟩ (RMaterial.new (RColor.new_with 1 0 1 1))) ∧
    (e2eRCamera trigZ (fun q => q)).make_ray 0.5 0.5 = e2eRay ∧
    compute_color (e2eRCamera trigZ (fun q => q)) [e2eObject trigZ] e2eParams 0 0 =
      RColor.new_with 1 0 1 1 :=
  claim_C7_end_to_end trigZ (fun q => q) rfl

/-- Counterexample for C8 as stated: a legitimate one-sample jitter whose
perturbation shifts the sample 10 pixels produces the background color,
while the non-jittered pixel shows the qube's face color. -/
theorem claim_C8_counterexample :
    cexParamsJ = { cexParamsN with ray_jitter := some shiftJitter } ∧
    shiftJitter.ray_count = 1 ∧
    compute_color shiftCamera [e2eObject trigZ] cexParamsJ 0 0 = RColor.new_with 0 0 0 0 ∧
    compute_color shiftCamera [e2eObject trigZ] cexParamsN 0 0 = RColor.new_with 1 0 1 1 ∧
    RColor.new_with (0 : ℚ) 0 0 0 ≠ RColor.new_with 1 0 1 1 := by
  refine ⟨rfl, rfl, ?_, ?_, by simp [RColor.new_with]⟩
  · unfold compute_color
    show List.foldl _ RColor.new (List.range 1) = _
    simp only [show List.range 1 = [0] from rfl, List.foldl_cons, List.foldl_nil]
    show RColor.add RColor.new
      ((computeColorForRay [e2eObject trigZ] cexParamsJ
        (shiftCamera.make_ray (((0 : ℕ) : ℚ) + 10) ((0 : ℕ) : ℚ)) 0).div ((1 : ℕ) : ℚ)) = _
    have hray : shiftCamera.make_ray (((0 : ℕ) : ℚ) + 10) ((0 : ℕ) : ℚ) =
        ⟨⟨10, 0, 5⟩, ⟨0, 0, -1⟩⟩ := by
      show Ray.mk ⟨((0 : ℕ) : ℚ) + 10, ((0 : ℕ) : ℚ), 5⟩ ⟨0, 0, -1⟩ = _
      norm_num
    rw [hray, ccfr_congr [e2eObject trigZ] cexParamsJ e2eParams rfl rfl rfl rfl,
      e2e_ccfr_miss trigZ]
    show RColor.add RColor.new ((RColor.new_with 0 0 0 0).div ((1 : ℕ) : ℚ)) = _
    norm_num [RColor.add, RColor.new, RColor.new_with, RColor.div]
  · unfold compute_color
    show computeColorForRay [e2eObject trigZ] cexParamsN
      (shiftCamera.make_ray (((0 : ℕ) : ℚ) + 0.5) (((0 : ℕ) : ℚ) + 0.5)) 0 = _
    have hray : shiftCamera.make_ray (((0 : ℕ) : ℚ) + 0.5) (((0 : ℕ) : ℚ) + 0.5) =
        ⟨⟨0.5, 0.5, 5⟩, ⟨0, 0, -1⟩⟩ := by
      show Ray.mk ⟨((0 : ℕ) : ℚ) + 0.5, ((0 : ℕ) : ℚ) + 0.5, 5⟩ ⟨0, 0, -1⟩ = _
      norm_num
    rw [hray, ccfr_congr [e2eObject trigZ] cexParamsN e2eParams rfl rfl rfl rfl]
    exact e2e_ccfr_hit trigZ 0.5 0.5 (by rw [abs_le]; constructor <;> norm_num)
      (by rw [abs_le]; constructor <;> norm_num)

end RayTracer
